import Mathlib

/-!
Verification development for `bind-to-tinydns.c` (version 0.4.2).

The program is a single-file C converter from BIND master-file zone data to
the tinydns-data line format.  We embed it shallowly: C strings become
`List Nat` of byte values (C strings contain no NUL byte, so the terminator
is represented by the end of the list), the `string` struct becomes the
`CString` structure below, `unsigned int` arithmetic is `Nat` arithmetic
reduced modulo `2 ^ 32`, and functions that can call `fatal` or report
failure through their return code become `Option`/`Except` valued functions.
`char` is modelled as an unsigned byte (as on platforms where `char` is
unsigned); `isprint` is the ASCII range 32..126.
-/

set_option autoImplicit false

/-- Modulus of C `unsigned int` arithmetic. -/
def U32 : Nat := 4294967296

/-- Byte value list of a Lean string literal; used to write concrete inputs
readably.  All inputs of interest are ASCII. -/
def strBytes (s : String) : List Nat := s.data.map Char.toNat

/-- C `isprint` on an unsigned byte (ASCII printable range). -/
def isprintB (b : Nat) : Bool := 32 ≤ b && b ≤ 126

/-- C `isdigit` on an unsigned byte. -/
def isdigitB (b : Nat) : Bool := 48 ≤ b && b ≤ 57

/-- The three octal digits printed by `sprintf("%03o", n)` for `n ≤ 255`. -/
def oct3 (n : Nat) : List Nat := [48 + n / 64 % 8, 48 + n / 8 % 8, 48 + n % 8]

/-- Decimal digit list of a natural number, since the structural fuel
`n + 1` always suffices (`printf("%u", n)` / `printf("%d", n)` for
non-negative values). -/
def natDecGo : Nat → Nat → List Nat
  | 0, _ => []
  | f + 1, n => if n < 10 then [48 + n] else natDecGo f (n / 10) ++ [48 + n % 10]

/-- Decimal rendering of a natural number as a byte list. -/
def natDec (n : Nat) : List Nat := natDecGo (n + 1) n

/-- Decimal value of a digit-byte list continuing an accumulator, exactly the
`total = total * 10 + (*src - '0')` loops of the C source. -/
def valDec (a : Nat) (ds : List Nat) : Nat := ds.foldl (fun x c => x * 10 + (c - 48)) a

/-- Whether a byte list contains two consecutive dots
(`strstr(text, "..") != NULL`). -/
def hasDotDot : List Nat → Bool
  | a :: b :: rest => (a == 46 && b == 46) || hasDotDot (b :: rest)
  | _ => false

/-- The `string` struct of the source: canonical escaped text plus the
logical length `len` and the stored length `real_len`. -/
structure CString where
  text : List Nat
  len : Nat
  real_len : Nat
deriving DecidableEq, Repr

/-- Append one plainly printable byte to the temporary string
(`temp.len++; temp.real_len++`). -/
def pushRaw (acc : CString) (b : Nat) : CString :=
  ⟨acc.text ++ [b], acc.len + 1, acc.real_len + 1⟩

/-- Append a 4-byte `\NNN` octal escape for byte `n`
(`temp.len++; temp.real_len += 4`). -/
def pushEsc (acc : CString) (n : Nat) : CString :=
  ⟨acc.text ++ 92 :: oct3 n, acc.len + 1, acc.real_len + 4⟩

/-- Value of a decimal `\DDD` escape (the local `num` of the source,
lines 119-122). -/
def decEsc (d d2 d3 : Nat) : Nat := (d - 48) * 100 + (d2 - 48) * 10 + (d3 - 48)

/-- Loop body of `sanitize_string` (bind-to-tinydns.c lines 76-161): walks the
source bytes, copying printable non-reserved bytes, decoding backslash
escapes (decimal `\DDD` escapes and single-character escapes) and re-escaping
reserved or non-printable bytes as octal `\NNN`. -/
def sanLoop : List Nat → CString → Option CString
  | [], acc => some acc
  | b :: rest, acc =>
    if acc.len = 255 then none
    else if isprintB b && b != 92 && b != 58 then sanLoop rest (pushRaw acc b)
    else if b = 92 then
      match rest with
      | [] => none
      | d :: rest2 =>
        if !isdigitB d then
          if d == 58 || d == 92 || d == 46 || !isprintB d then sanLoop rest2 (pushEsc acc d)
          else sanLoop rest2 (pushRaw acc d)
        else
          match rest2 with
          | d2 :: d3 :: rest4 =>
            if isdigitB d2 && isdigitB d3 then
              if decEsc d d2 d3 > 255 then none
              else if isprintB (decEsc d d2 d3) && decEsc d d2 d3 != 58 &&
                  decEsc d d2 d3 != 46 && decEsc d d2 d3 != 92 then
                sanLoop rest4 (pushRaw acc (decEsc d d2 d3))
              else sanLoop rest4 (pushEsc acc (decEsc d d2 d3))
            else none
          | _ => none
    else sanLoop rest (pushEsc acc b)

/-- `sanitize_string` (returns `none` where the C function returns 1). -/
def sanitize_string (src : List Nat) : Option CString := sanLoop src ⟨[], 0, 0⟩

/-- `qualify_domain` (bind-to-tinydns.c lines 173-266): canonicalize `name`
and qualify it against `origin`.  The C `origin` pointer may be NULL, hence
`Option CString`. -/
def qualify_domain (name : List Nat) (origin : Option CString) : Option CString :=
  match sanitize_string name with
  | none => none
  | some sname =>
    if sname.len != 0 then
      if sname.text.headD 0 == 46 && sname.text.getD 1 0 != 0 then none
      else if hasDotDot sname.text then none
      else if sname.text.headD 0 == 64 && sname.text.getD 1 0 == 0 then
        match origin with
        | none => none
        | some o => if o.len == 0 then none else some o
      else if sname.text.getD (sname.real_len - 1) 0 == 46 then some sname
      else
        match origin with
        | none => none
        | some o =>
          if o.len == 0 then none
          else if o.text.headD 0 == 46 && o.text.getD 1 0 == 0 then
            if sname.len + 1 > 255 then none
            else some ⟨sname.text ++ [46], sname.len + 1, sname.real_len + 1⟩
          else
            if sname.len + 1 + o.len > 255 then none
            else some ⟨sname.text ++ 46 :: o.text, sname.len + 1 + o.len,
                       sname.real_len + 1 + o.real_len⟩
    else
      match origin with
      | none => none
      | some o => if o.len == 0 then none else some o

/-- Seconds multiplier of a BIND time-format unit letter, or `none` for an
unrecognized letter. -/
def unitMult (b : Nat) : Option Nat :=
  if b == 119 || b == 87 then some 604800
  else if b == 100 || b == 68 then some 86400
  else if b == 104 || b == 72 then some 3600
  else if b == 109 || b == 77 then some 60
  else if b == 115 || b == 83 then some 1
  else none

/-- Loop of `str_to_uint` (bind-to-tinydns.c lines 282-321).  Arguments:
remaining bytes, `allow_time_fmt`, `in_time_fmt`, `in_part`, `total`,
`part`; unsigned overflow wraps modulo `2 ^ 32` as in the source. -/
def s2u : List Nat → Bool → Bool → Bool → Nat → Nat → Option Nat
  | [], _, in_time, in_part, total, part =>
    if in_time && in_part then none
    else some (if in_time then total else part)
  | b :: rest, allow, in_time, in_part, total, part =>
    if isdigitB b then
      s2u rest allow in_time true total ((part * 10 + (b - 48)) % U32)
    else if !allow || !in_part then none
    else
      match unitMult b with
      | none => none
      | some m => s2u rest allow true false ((total + part * m) % U32) 0

/-- `str_to_uint`: plain decimal, or BIND time format when `allow` is set. -/
def str_to_uint (src : List Nat) (allow : Bool) : Option Nat :=
  if src.isEmpty then none else s2u src allow false false 0 0

/-- Split a byte list at its first `'.'`; `none` when there is no dot
(`strchr(src, '.')` returning NULL). -/
def splitAtDot : List Nat → Option (List Nat × List Nat)
  | [] => none
  | b :: rest =>
    if b == 46 then some ([], rest)
    else
      match splitAtDot rest with
      | none => none
      | some (g, r) => some (b :: g, r)

/-- One octet group of `sanitize_ip`: must be non-empty and all digits, and
its decimal value must be at most 255.  The C accumulator is a (signed) `int`;
signed overflow is undefined in C, so the group value is modelled as an
unbounded natural number. -/
def ipGroup (g : List Nat) : Option Nat :=
  if g.isEmpty then none
  else if g.all isdigitB then
    if valDec 0 g > 255 then none else some (valDec 0 g)
  else none

/-- `sanitize_ip` (bind-to-tinydns.c lines 329-351): exactly four
dot-separated octet groups, re-rendered without leading zeros. -/
def sanitize_ip (src : List Nat) : Option (List Nat) :=
  match splitAtDot src with
  | none => none
  | some (g1, r1) =>
    match ipGroup g1 with
    | none => none
    | some v1 =>
      match splitAtDot r1 with
      | none => none
      | some (g2, r2) =>
        match ipGroup g2 with
        | none => none
        | some v2 =>
          match splitAtDot r2 with
          | none => none
          | some (g3, r3) =>
            match ipGroup g3 with
            | none => none
            | some v3 =>
              match ipGroup r3 with
              | none => none
              | some v4 =>
                some (natDec v1 ++ 46 :: natDec v2 ++ 46 :: natDec v3 ++ 46 :: natDec v4)

/-- C `tolower` on a byte. -/
def toLowerB (b : Nat) : Nat := if 65 ≤ b && b ≤ 90 then b + 32 else b

/-- `strcasecmp(a, b) == 0` on byte lists. -/
def caseEq : List Nat → List Nat → Bool
  | [], [] => true
  | a :: as, b :: bs => toLowerB a == toLowerB b && caseEq as bs
  | _, _ => false

/-! ## Lexer (`tokenize`, bind-to-tinydns.c lines 356-468)

The lexer state.  `i` is the position in the 8193-byte line buffer, `toks`
are the completed tokens, `cur` is the content of the currently open token
(meaningful when `in_token`), `ntok` is the C `num_tokens` counter, and the
flags mirror the C locals of the same names. -/
structure TokSt where
  i : Nat
  toks : List (List Nat)
  cur : List Nat
  in_token : Bool
  in_dq : Bool
  in_quote : Bool
  set_in_quote : Bool
  in_txt : Bool
  paren : Nat
  ntok : Nat
  found : Bool
  warns : List String
deriving DecidableEq, Repr

/-- Initial lexer state for one entry. -/
def tokInit : TokSt :=
  ⟨0, [], [], false, false, false, false, false, 0, 0, false, []⟩

/-- Close the open token, if any: the C code does this by writing `'\0'`
over a delimiter byte. -/
def closeTok (st : TokSt) : TokSt :=
  if st.in_token then { st with toks := st.toks ++ [st.cur], cur := [], in_token := false }
  else st

/-- Advance the buffer index (the `i++` of the scanning `for` loop). -/
def bump (st : TokSt) : TokSt := { st with i := st.i + 1 }

/-- Append a byte to the open token if one is open.  A byte skipped by
`continue` stays in the line buffer and hence inside the extent of the
currently open token. -/
def appendIfOpen (st : TokSt) (c : Nat) : TokSt :=
  if st.in_token then { st with cur := st.cur ++ [c] } else st

/-- Outcome of processing one byte in the delimiter chain. -/
inductive LineAct where
  | cont (st : TokSt)
  | brk (st : TokSt)
  | fat (msg : String)

/-- The delimiter chain of the scanning loop (the doublequote-skip test and
the `if`/`else if` ladder on `line[i]`, lines 388-450). -/
def delimStep (c : Nat) (st : TokSt) : LineAct :=
  if st.in_dq && c != 34 then .cont (bump (appendIfOpen st c))
  else if c == 59 then .brk (closeTok st)
  else if c == 40 then
    if st.paren + 1 > 3 then .fat "too many nested parentheses"
    else
      let stc := closeTok st
      .cont (bump { stc with paren := st.paren + 1 })
  else if c == 41 then
    if st.paren == 0 then .fat "missing opening parenthesis"
    else
      let stc := closeTok st
      .cont (bump { stc with paren := st.paren - 1 })
  else if c == 34 then
    let stc := closeTok st
    if st.in_dq then .cont (bump { stc with in_dq := false })
    else if !st.in_txt &&
        (stc.ntok == 0 || !caseEq (stc.toks.getLastD []) (strBytes "txt")) then
      .fat "improper use of double-quotes (can only be used for TXT rdata)"
    else
      .cont (bump { stc with
        in_txt := true, cur := [], in_token := true, ntok := stc.ntok + 1, in_dq := true })
  else if c == 32 || c == 9 then
    if st.i == 0 then
      .cont (bump { st with toks := st.toks ++ [[32]], ntok := st.ntok + 1 })
    else .cont (bump (closeTok st))
  else if c == 10 || c == 13 then .cont (bump (closeTok st))
  else if !st.in_token then
    if st.ntok ≥ 32 then .fat "too many tokens in RR"
    else .cont (bump { st with cur := [c], in_token := true, ntok := st.ntok + 1,
                               found := true })
  else .cont (bump { st with cur := st.cur ++ [c] })

/-- Scan the content one `fgets` call returned (the inner `for` loop,
lines 371-451): escape look-ahead first, then the delimiter chain. -/
def scanLine : List Nat → TokSt → Except String TokSt
  | [], st => .ok st
  | c :: rest, st₀ =>
    if st₀.i == 8192 then .error "entry too long"
    else
      let s1 := if st₀.set_in_quote then { st₀ with in_quote := true, set_in_quote := false }
                else st₀
      if c == 92 && !s1.in_quote then
        match delimStep c { s1 with set_in_quote := true } with
        | .cont st' => scanLine rest st'
        | .brk st' => .ok st'
        | .fat m => .error m
      else if s1.in_quote && c != 10 then
        scanLine rest (bump (appendIfOpen { s1 with in_quote := false } c))
      else
        match delimStep c s1 with
        | .cont st' => scanLine rest st'
        | .brk st' => .ok st'
        | .fat m => .error m

/-- Model of `fgets(line + i, n, stdin)`: up to `n` bytes are taken from the
input, stopping after the first newline. -/
def fgetsSplit : Nat → List Nat → List Nat × List Nat
  | 0, s => ([], s)
  | _ + 1, [] => ([], [])
  | n + 1, c :: rest =>
    if c == 10 then ([c], rest)
    else
      let (t, r) := fgetsSplit n rest
      (c :: t, r)

/-- Result of `tokenize`: end of file (the C return value -1), a fatal
parse error, a non-terminating execution, or a token list plus the
remaining input and the warnings printed while lexing. -/
inductive TokOut where
  | eof
  | fatal (msg : String)
  | hang
  | ok (tokens : List (List Nat)) (rest : List Nat) (warns : List String)
deriving DecidableEq, Repr

/-- The `do`/`while (paren_level)` loop of `tokenize`.  Note that end of
input returns `.eof` even when the parenthesis depth is positive: the
`fgets` failure branch returns -1 before the loop condition is ever
rechecked, so the `open parentheses at end of file` check after the loop is
unreachable.  When the buffer is full (`i = 8192`) the C code calls `fgets`
with a buffer size of 1 forever, which is modelled as `.hang`. -/
def tokLoop : Nat → List Nat → TokSt → TokOut
  | 0, _, _ => .hang
  | fuel + 1, input, st =>
    if st.i ≥ 8192 then .hang
    else if input.isEmpty then .eof
    else
      let (taken, rest) := fgetsSplit (8192 - st.i) input
      match scanLine taken st with
      | .error m => .fatal m
      | .ok st' =>
        let w1 := if st'.in_quote then
            ["hanging backslash at end of line; pretending it was terminated"] else []
        let w2 := if st'.in_dq then
            ["open doublequoted string at end of line; pretending it was closed"] else []
        let st'' := { st' with warns := st'.warns ++ w1 ++ w2 }
        if st''.paren != 0 then tokLoop fuel rest st''
        else
          .ok (if st''.found then st''.toks ++ (if st''.in_token then [st''.cur] else []) else [])
            rest st''.warns

/-- `tokenize`: lex one entry from the input stream. -/
def tokenize (input : List Nat) : TokOut := tokLoop (input.length + 1) input tokInit

/-! ## `$GENERATE` machinery (lines 470-587) -/

/-- One part of a `$GENERATE` template: a literal fragment, or a
substitution slot with offset, zero-pad width and base letter. -/
inductive GenPart where
  | lit (s : List Nat)
  | sub (off : Int) (width : Nat) (base : Nat)
deriving DecidableEq, Repr

/-- Consume a run of decimal digits, returning the accumulated value, a
flag telling whether at least one digit was found, and the rest. -/
def takeDigits : List Nat → Nat → Bool → Nat × Bool × List Nat
  | [], acc, found => (acc, found, [])
  | c :: rest, acc, found =>
    if isdigitB c then takeDigits rest (acc * 10 + (c - 48)) true
    else (acc, found, c :: rest)

/-- Parse the inside of a `${...}` specification, after the opening brace
(lines 509-551).  Returns offset, width, base byte and the remaining
bytes after the closing brace. -/
def parseBraces (cs : List Nat) : Except String (Int × Nat × Nat × List Nat) :=
  let (negSign, cs1) : Bool × List Nat :=
    match cs with
    | 45 :: r => (true, r)
    | _ => (false, cs)
  let (offN, found1, cs2) := takeDigits cs1 0 false
  if !found1 then .error "parse error in $GENERATE curly braces (at offset)"
  else
    let off : Int := if negSign then -(offN : Int) else (offN : Int)
    match cs2 with
    | 125 :: rest => .ok (off, 0, 100, rest)
    | 44 :: cs3 =>
      let (w, found2, cs4) := takeDigits cs3 0 false
      if !found2 then .error "parse error in $GENERATE curly braces (at width)"
      else
        match cs4 with
        | 125 :: rest => .ok (off, w, 100, rest)
        | 44 :: b :: cs6 =>
          if b == 100 || b == 111 || b == 120 || b == 88 then
            match cs6 with
            | 125 :: rest => .ok (off, w, b, rest)
            | _ => .error "parse error in $GENERATE (curly braces not closed after base)"
          else .error "$GENERATE has invalid base"
        | [44] => .error "$GENERATE has invalid base"
        | _ => .error "parse error in $GENERATE curly braces (at width)"
    | _ => .error "parse error in $GENERATE curly braces (at offset)"

/-- Loop of `parse_gen_string`.  `done` holds the finished parts, `acc` the
text of the currently registered literal part, `openLit` whether a literal
part is currently registered, `np` the C `num_parts` counter.  Note that
`$$` leaves both dollar signs in the literal text (the source never removes
them). -/
def pgsLoop : Nat → List Nat → List GenPart → List Nat → Bool → Nat → Bool →
    Except String (List GenPart)
  | 0, _, _, _, _, _, _ => .error "parse fuel exhausted"
  | _ + 1, [], done, acc, openLit, _, _ =>
    .ok (done ++ if openLit then [GenPart.lit acc] else [])
  | fuel + 1, c :: rest, done, acc, openLit, np, q =>
    if q then pgsLoop fuel rest done (acc ++ [c]) openLit np false
    else if c == 92 then pgsLoop fuel rest done (acc ++ [c]) openLit np true
    else if c == 36 then
      match rest with
      | 36 :: rest2 => pgsLoop fuel rest2 done (acc ++ [36, 36]) openLit np false
      | _ =>
        if np ≥ 10 then .error "$GENERATE directive has too many parts"
        else
          let (doneL, np') : List GenPart × Nat :=
            if openLit && acc.isEmpty then (done, np)
            else (done ++ [GenPart.lit acc], np + 1)
          let emit := fun (off : Int) (w : Nat) (b : Nat) (rest3 : List Nat) =>
            let done2 := doneL ++ [GenPart.sub off w b]
            if rest3.isEmpty then Except.ok done2
            else if np' ≥ 10 then Except.error "$GENERATE directive has too many parts"
            else pgsLoop fuel rest3 done2 [] true (np' + 1) false
          match rest with
          | 123 :: rest2 =>
            match parseBraces rest2 with
            | .error m => .error m
            | .ok (off, w, b, rest3) => emit off w b rest3
          | _ => emit 0 0 100 rest
    else pgsLoop fuel rest done (acc ++ [c]) openLit np false

/-- `parse_gen_string`: split a `$GENERATE` template into parts.
`parts[0] = line` registers an initial (possibly empty) literal part. -/
def parse_gen_string (line : List Nat) : Except String (List GenPart) :=
  pgsLoop (line.length + 1) line [] [] true 1 false

/-- Left-pad a rendering with zeros to the given width (`%0<w>...`). -/
def padZeros (w : Nat) (s : List Nat) : List Nat :=
  List.replicate (w - s.length) 48 ++ s

/-- Digit byte in a base up to 16 (lowercase or uppercase letters). -/
def hexDigit (upper : Bool) (d : Nat) : Nat :=
  if d < 10 then 48 + d else if upper then 55 + d else 87 + d

/-- Base rendering of a natural number, with structural fuel (`n + 1`
always suffices for bases at least 2). -/
def natBaseGo (base : Nat) (upper : Bool) : Nat → Nat → List Nat
  | 0, _ => []
  | f + 1, n =>
    if n < base then [hexDigit upper n]
    else natBaseGo base upper f (n / base) ++ [hexDigit upper (n % base)]

/-- Octal/hex rendering of a natural number as a byte list. -/
def natBase (base : Nat) (upper : Bool) (n : Nat) : List Nat := natBaseGo base upper (n + 1) n

/-- Render one substitution slot: `snprintf` with format `%0<w><base>`.
`%d` prints the signed value (zeros padded after the sign); `%o`/`%x`/`%X`
read the argument as `unsigned int`, i.e. modulo `2 ^ 32`. -/
def fmtSub (w : Nat) (b : Nat) (v : Int) : List Nat :=
  if b == 100 then
    if v < 0 then 45 :: padZeros (w - 1) (natDec v.natAbs)
    else padZeros w (natDec v.toNat)
  else
    let uv := (v % (U32 : Int)).toNat
    if b == 111 then padZeros w (natBase 8 false uv)
    else if b == 88 then padZeros w (natBase 16 true uv)
    else padZeros w (natBase 16 false uv)

/-- `construct_gen_output`: instantiate the parsed template at one iterator
value; fatal when the constructed token exceeds `DOMAIN_STR_LEN` = 1021
bytes. -/
def construct_gen_output (parts : List GenPart) (iter : Int) : Except String (List Nat) :=
  let s := parts.foldl
    (fun acc p =>
      acc ++ match p with
        | .lit l => l
        | .sub off w b => fmtSub w b (iter + off)) []
  if s.length > 1021 then .error "$GENERATE directive constructed a token that was too long"
  else .ok s

/-- Parse the `<start>-<stop>[/<step>]` range of a `$GENERATE` directive
(lines 640-671). -/
def parseGenRange (t : List Nat) : Except String (Nat × Nat × Nat) :=
  let (start, f1, r1) := takeDigits t 0 false
  if !f1 then .error "$GENERATE directive has invalid range (unable to parse start)"
  else
    match r1 with
    | 45 :: r2 =>
      let (stop, f2, r3) := takeDigits r2 0 false
      if !f2 then .error "$GENERATE directive has invalid range (unable to parse stop)"
      else
        match r3 with
        | [] => .ok (start, stop, 1)
        | 47 :: r4 =>
          let (step, f3, r5) := takeDigits r4 0 false
          if !f3 || !r5.isEmpty || step == 0 then
            .error "$GENERATE directive has invalid range (unable to parse step)"
          else .ok (start, stop, step)
        | _ => .error "$GENERATE directive has invalid range (unable to parse stop)"
    | _ => .error "$GENERATE directive has invalid range (unable to parse start)"

/-- Iterator values of `for (i = start; i <= stop; i += step)`. -/
def genIters (start stop step : Nat) : List Nat :=
  if start > stop then []
  else (List.range ((stop - start) / step + 1)).map fun k => start + k * step

/-! ## Record encoder / directive handler (`handle_entry`, lines 590-928) -/

/-- Zone context threaded through `handle_entry`: the mutable current
origin and default TTL of `main`, plus the function-static `owner` string
and `prev_owner` flag. -/
structure ZState where
  cur_origin : CString
  ttl : Nat
  owner : CString
  prev_owner : Bool
deriving DecidableEq, Repr

/-- Result of one successful `handle_entry` call: updated state, emitted
output lines (without the trailing newline), warnings, and the C return
value (1 exactly for an out-of-zone skip). -/
structure EOut where
  st : ZState
  lines : List (List Nat)
  warns : List String
  ret : Nat
deriving DecidableEq, Repr

/-- `token[n]`; reading past `num_tokens` is undefined in C (stale array
slots) and modelled as the empty token. -/
def tokAt (tokens : List (List Nat)) (n : Nat) : List Nat := tokens.getD n []

/-- The out-of-zone test of lines 726-732: the owner is out of zone if the
top origin is longer than the owner, or the owner does not end
(case-insensitively) with the top origin, or there is no `.` immediately
left of that suffix. -/
def outOfZone (top ow : CString) : Bool :=
  top.real_len > ow.real_len ||
  !caseEq top.text (ow.text.drop (ow.real_len - top.real_len)) ||
  (ow.real_len > top.real_len && ow.text.getD (ow.real_len - top.real_len - 1) 0 != 46)

/-- Range fallback for a successfully parsed record TTL (lines 754-757 and
765-769): values above 2,147,483,646 warn and fall back to the default. -/
def ttlWarn (dflt v : Nat) : Nat × List String :=
  if v > 2147483646 then (dflt, ["invalid TTL in RR"]) else (v, [])

/-- TTL/class probing (lines 752-774): returns the index of the type token,
the effective record TTL, and the warnings printed. -/
def ttlProbe (tokens : List (List Nat)) (st : ZState) : Nat × Nat × List String :=
  match str_to_uint (tokAt tokens 1) true with
  | some v =>
    if caseEq (tokAt tokens 2) (strBytes "IN") then (3, ttlWarn st.ttl v)
    else (2, ttlWarn st.ttl v)
  | none =>
    if caseEq (tokAt tokens 1) (strBytes "IN") then
      match str_to_uint (tokAt tokens 2) true with
      | some v => (3, ttlWarn st.ttl v)
      | none => (2, st.ttl, [])
    else (1, st.ttl, [])

/-- A `\NNN` octal escape as printed into the output (`"\\%03o"`). -/
def escByte (n : Nat) : List Nat := 92 :: oct3 n

/-- SOA branch (lines 777-817).  Note: SERIAL is parsed without the
time format and, unlike the four time fields, has no upper-bound check;
the emitted `Z` line carries no TTL field. -/
def handleSOA (tokens : List (List Nat)) (next : Nat) (warns0 : List String) (st : ZState) :
    Except String EOut :=
  if (tokens.length : Int) - next - 1 == 2 then
    .error "wrong number of tokens in SOA RDATA (perhaps an opening parenthesis is on the next line instead of this one?)"
  else if (tokens.length : Int) - next - 1 != 7 then .error "wrong number of tokens in SOA RDATA"
  else
    match qualify_domain (tokAt tokens (next + 1)) (some st.cur_origin) with
    | none => .error "choked on MNAME in SOA RDATA"
    | some mname =>
      match qualify_domain (tokAt tokens (next + 2)) (some st.cur_origin) with
      | none => .error "choked on RNAME in SOA RDATA"
      | some rname =>
        match str_to_uint (tokAt tokens (next + 3)) false with
        | none => .error "invalid SERIAL in SOA RDATA"
        | some serial =>
          match str_to_uint (tokAt tokens (next + 4)) true with
          | none => .error "invalid REFRESH in SOA RDATA"
          | some refresh =>
            if refresh > 2147483646 then .error "invalid REFRESH in SOA RDATA"
            else
              match str_to_uint (tokAt tokens (next + 5)) true with
              | none => .error "invalid RETRY in SOA RDATA"
              | some retry =>
                if retry > 2147483646 then .error "invalid RETRY in SOA RDATA"
                else
                  match str_to_uint (tokAt tokens (next + 6)) true with
                  | none => .error "invalid EXPIRE in SOA RDATA"
                  | some expire =>
                    if expire > 2147483646 then .error "invalid EXPIRE in SOA RDATA"
                    else
                      match str_to_uint (tokAt tokens (next + 7)) true with
                      | none => .error "invalid MINIMUM in SOA RDATA"
                      | some minimum =>
                        if minimum > 2147483646 then .error "invalid MINIMUM in SOA RDATA"
                        else
                          .ok ⟨st,
                            [[90] ++ st.owner.text ++ [58] ++ mname.text ++ [58] ++
                              rname.text ++ [58] ++ natDec serial ++ [58] ++
                              natDec refresh ++ [58] ++ natDec retry ++ [58] ++
                              natDec expire ++ [58] ++ natDec minimum],
                            warns0, 0⟩

/-- NS branch (lines 819-828). -/
def handleNS (tokens : List (List Nat)) (next ttlv : Nat) (warns0 : List String) (st : ZState) :
    Except String EOut :=
  if (tokens.length : Int) - next - 1 != 1 then .error "wrong number of tokens in NS RDATA"
  else
    match qualify_domain (tokAt tokens (next + 1)) (some st.cur_origin) with
    | none => .error "choked on domain name in NS RDATA"
    | some rd =>
      .ok ⟨st, [[38] ++ st.owner.text ++ [58, 58] ++ rd.text ++ [58] ++ natDec ttlv],
        warns0, 0⟩

/-- MX branch (lines 830-844). -/
def handleMX (tokens : List (List Nat)) (next ttlv : Nat) (warns0 : List String) (st : ZState) :
    Except String EOut :=
  if (tokens.length : Int) - next - 1 != 2 then .error "wrong number of tokens in MX RDATA"
  else
    match str_to_uint (tokAt tokens (next + 1)) false with
    | none => .error "invalid priority in MX RDATA"
    | some priority =>
      if priority > 65535 then .error "invalid priority in MX RDATA"
      else
        match qualify_domain (tokAt tokens (next + 2)) (some st.cur_origin) with
        | none => .error "choked on domain name in MX RDATA"
        | some rd =>
          .ok ⟨st,
            [[64] ++ st.owner.text ++ [58, 58] ++ rd.text ++ [58] ++ natDec priority ++
              [58] ++ natDec ttlv], warns0, 0⟩

/-- A branch (lines 846-855). -/
def handleA (tokens : List (List Nat)) (next ttlv : Nat) (warns0 : List String) (st : ZState) :
    Except String EOut :=
  if (tokens.length : Int) - next - 1 != 1 then .error "wrong number of tokens in A RDATA"
  else
    match sanitize_ip (tokAt tokens (next + 1)) with
    | none => .error "invalid IP address in A RDATA"
    | some ip =>
      .ok ⟨st, [[43] ++ st.owner.text ++ [58] ++ ip ++ [58] ++ natDec ttlv], warns0, 0⟩

/-- CNAME branch (lines 857-866). -/
def handleCNAME (tokens : List (List Nat)) (next ttlv : Nat) (warns0 : List String)
    (st : ZState) : Except String EOut :=
  if (tokens.length : Int) - next - 1 != 1 then .error "wrong number of tokens in CNAME RDATA"
  else
    match qualify_domain (tokAt tokens (next + 1)) (some st.cur_origin) with
    | none => .error "choked on domain name in CNAME RDATA"
    | some rd =>
      .ok ⟨st, [[67] ++ st.owner.text ++ [58] ++ rd.text ++ [58] ++ natDec ttlv], warns0, 0⟩

/-- PTR branch (lines 868-877). -/
def handlePTR (tokens : List (List Nat)) (next ttlv : Nat) (warns0 : List String)
    (st : ZState) : Except String EOut :=
  if (tokens.length : Int) - next - 1 != 1 then .error "wrong number of tokens in PTR RDATA"
  else
    match qualify_domain (tokAt tokens (next + 1)) (some st.cur_origin) with
    | none => .error "choked on domain name in PTR RDATA"
    | some rd =>
      .ok ⟨st, [[94] ++ st.owner.text ++ [58] ++ rd.text ++ [58] ++ natDec ttlv], warns0, 0⟩

/-- Sanitize the TXT RDATA tokens and render each as a one-byte length
prefix (octal escape) followed by the escaped text. -/
def txtChunks : List (List Nat) → Option (List Nat)
  | [] => some []
  | t :: rest =>
    match sanitize_string t with
    | none => none
    | some s =>
      match txtChunks rest with
      | none => none
      | some r => some (escByte s.len ++ s.text ++ r)

/-- TXT branch (lines 879-892). -/
def handleTXT (tokens : List (List Nat)) (next ttlv : Nat) (warns0 : List String)
    (st : ZState) : Except String EOut :=
  if (tokens.length : Int) - next - 1 < 1 then .error "too few tokens in TXT RDATA"
  else
    match txtChunks (tokens.drop (next + 1)) with
    | none => .error "choked while sanitizing TXT RDATA"
    | some chunk =>
      .ok ⟨st, [[58] ++ st.owner.text ++ strBytes ":16:" ++ chunk ++ [58] ++ natDec ttlv],
        warns0, 0⟩

/-- SRV branch (lines 894-920). -/
def handleSRV (tokens : List (List Nat)) (next ttlv : Nat) (warns0 : List String)
    (st : ZState) : Except String EOut :=
  if (tokens.length : Int) - next - 1 != 4 then .error "wrong number of tokens in SRV RDATA"
  else
    match str_to_uint (tokAt tokens (next + 1)) false with
    | none => .error "invalid priority in SRV RDATA"
    | some priority =>
      if priority > 65535 then .error "invalid priority in SRV RDATA"
      else
        match str_to_uint (tokAt tokens (next + 2)) false with
        | none => .error "invalid weight in SRV RDATA"
        | some weight =>
          if weight > 65535 then .error "invalid weight in SRV RDATA"
          else
            match str_to_uint (tokAt tokens (next + 3)) false with
            | none => .error "invalid port in SRV RDATA"
            | some port =>
              if port > 65535 then .error "invalid port in SRV RDATA"
              else
                match qualify_domain (tokAt tokens (next + 4)) (some st.cur_origin) with
                | none => .error "choked on domain name in SRV RDATA"
                | some rd =>
                  .ok ⟨st,
                    [[58] ++ st.owner.text ++ strBytes ":33:" ++
                      escByte (priority / 256) ++ escByte (priority % 256) ++
                      escByte (weight / 256) ++ escByte (weight % 256) ++
                      escByte (port / 256) ++ escByte (port % 256) ++
                      escByte rd.len ++ rd.text ++ [58] ++ natDec ttlv],
                    warns0, 0⟩

/-- TTL/class probing followed by the record-type dispatch (lines 747-924).
`st` already carries the resolved owner. -/
def recordTail (tokens : List (List Nat)) (st : ZState) : Except String EOut :=
  let p := ttlProbe tokens st
  let ty := tokAt tokens p.1
  if caseEq ty (strBytes "SOA") then handleSOA tokens p.1 p.2.2 st
  else if caseEq ty (strBytes "NS") then handleNS tokens p.1 p.2.1 p.2.2 st
  else if caseEq ty (strBytes "MX") then handleMX tokens p.1 p.2.1 p.2.2 st
  else if caseEq ty (strBytes "A") then handleA tokens p.1 p.2.1 p.2.2 st
  else if caseEq ty (strBytes "CNAME") then handleCNAME tokens p.1 p.2.1 p.2.2 st
  else if caseEq ty (strBytes "PTR") then handlePTR tokens p.1 p.2.1 p.2.2 st
  else if caseEq ty (strBytes "TXT") then handleTXT tokens p.1 p.2.1 p.2.2 st
  else if caseEq ty (strBytes "SRV") then handleSRV tokens p.1 p.2.1 p.2.2 st
  else .ok ⟨st, [], p.2.2 ++ ["skipping unknown RR type"], 0⟩

/-- The record branch of `handle_entry` (lines 702-925): resolve the owner
(or inherit it), apply the zone-containment check unless the top origin is
the root, then hand over to the type dispatch.  On an out-of-zone owner the
static `owner` has already been overwritten but `prev_owner` is not set. -/
def handleRecord (tokens : List (List Nat)) (top : CString) (st : ZState) :
    Except String EOut :=
  if tokens.length < 3 then .error "RR does not have enough tokens"
  else if tokAt tokens 0 != strBytes " " then
    match qualify_domain (tokAt tokens 0) (some st.cur_origin) with
    | none => .error "choked on owner name in RR"
    | some ow =>
      if top.text != [46] then
        if outOfZone top ow then
          .ok ⟨{ st with owner := ow }, [], ["ignoring out-of-zone data"], 1⟩
        else recordTail tokens { st with owner := ow, prev_owner := true }
      else recordTail tokens { st with owner := ow, prev_owner := true }
  else if !st.prev_owner then
    .error "RR tried to inherit owner from previous record, but there was no previous RR"
  else recordTail tokens st

/-- `handle_entry`.  The fuel bounds the `$GENERATE` self-recursion; a
generated entry has 3 tokens, so a nested `$GENERATE` always fails its
5-token arity check before recursing, and fuel 2 is enough for every call
the program makes (fuel 0 is unreachable from those call sites). -/
def handle_entry : Nat → List (List Nat) → CString → ZState → Except String EOut
  | 0, _, _, _ => .error "recursion fuel exhausted"
  | fuel + 1, tokens, top, st =>
    if tokens.isEmpty then .ok ⟨st, [], [], 0⟩
    else if caseEq (tokAt tokens 0) (strBytes "$ORIGIN") then
      if tokens.length != 2 then .error "$ORIGIN directive has wrong number of arguments"
      else
        match qualify_domain (tokAt tokens 1) (some st.cur_origin) with
        | none => .error "choked on domain name in $ORIGIN statement"
        | some o => .ok ⟨{ st with cur_origin := o }, [], [], 0⟩
    else if caseEq (tokAt tokens 0) (strBytes "$TTL") then
      if tokens.length != 2 then
        .ok ⟨{ st with ttl := 86400 }, [], ["$TTL directive has wrong number of arguments"], 0⟩
      else
        match str_to_uint (tokAt tokens 1) true with
        | none => .ok ⟨{ st with ttl := 86400 }, [], ["invalid $TTL value; using default instead"], 0⟩
        | some v =>
          if v > 2147483646 then
            .ok ⟨{ st with ttl := 86400 }, [], ["invalid $TTL value; using default instead"], 0⟩
          else .ok ⟨{ st with ttl := v }, [], [], 0⟩
    else if caseEq (tokAt tokens 0) (strBytes "$GENERATE") then
      if tokens.length != 5 then .error "$GENERATE directive has wrong number of arguments"
      else if !caseEq (tokAt tokens 3) (strBytes "PTR") &&
          !caseEq (tokAt tokens 3) (strBytes "CNAME") &&
          !caseEq (tokAt tokens 3) (strBytes "A") &&
          !caseEq (tokAt tokens 3) (strBytes "NS") then
        .error "$GENERATE directive has unknown RR type"
      else
        match parseGenRange (tokAt tokens 1) with
        | .error m => .error m
        | .ok (start, stop, step) =>
          match parse_gen_string (tokAt tokens 2) with
          | .error m => .error m
          | .ok lhsParts =>
            match parse_gen_string (tokAt tokens 4) with
            | .error m => .error m
            | .ok rhsParts =>
              let res := (genIters start stop step).foldl
                (fun acc i =>
                  match acc with
                  | .error m => .error m
                  | .ok (s, ls, ws) =>
                    match construct_gen_output lhsParts (i : Int) with
                    | .error m => .error m
                    | .ok lhs =>
                      match construct_gen_output rhsParts (i : Int) with
                      | .error m => .error m
                      | .ok rhs =>
                        match handle_entry fuel [lhs, tokAt tokens 3, rhs] top s with
                        | .error m => .error m
                        | .ok o => .ok (o.st, ls ++ o.lines, ws ++ o.warns))
                (Except.ok (st, ([] : List (List Nat)), ([] : List String)))
              match res with
              | .error m => .error m
              | .ok (s, ls, ws) => .ok ⟨s, ls, ws, 0⟩
    else if caseEq (tokAt tokens 0) (strBytes "$INCLUDE") then
      .error "sorry, $INCLUDE directive is not implemented"
    else if (tokAt tokens 0).headD 0 == 36 then
      .ok ⟨st, [], ["ignoring unknown $ directive"], 0⟩
    else handleRecord tokens top st

/-! ## Main loop (lines 931-988) -/

/-- Result of running the whole program on an input stream: a fatal exit
(status 1, temp file unlinked, output path never created), a hang, or a
successful conversion (temp file renamed onto the output path, exit 0)
carrying the emitted lines and warnings. -/
inductive RunRes where
  | fatal (msg : String)
  | hang
  | ok (lines : List (List Nat)) (warns : List String)
deriving DecidableEq, Repr

/-- The `while ((num_tokens = tokenize (token)) != -1)` loop of `main`. -/
def runLoop : Nat → List Nat → CString → ZState → List (List Nat) → List String → RunRes
  | 0, _, _, _, _, _ => .hang
  | fuel + 1, input, top, st, lines, warns =>
    match tokenize input with
    | .eof => .ok lines warns
    | .hang => .hang
    | .fatal m => .fatal m
    | .ok tokens rest ws =>
      match handle_entry 2 tokens top st with
      | .error m => .fatal m
      | .ok o => runLoop fuel rest top o.st (lines ++ o.lines) (warns ++ ws ++ o.warns)

/-- The whole program: qualify the command-line origin against the root,
then convert the input stream. -/
def runMain (originArg : List Nat) (input : List Nat) : RunRes :=
  match qualify_domain originArg (some ⟨[46], 1, 1⟩) with
  | none => .fatal "unable to qualify initial origin"
  | some origin =>
    runLoop (input.length + 1) input origin ⟨origin, 86400, ⟨[], 0, 0⟩, false⟩ [] []

/-! ## Shared concrete values for theorem statements -/

/-- The canonical origin obtained from the command-line argument
`example.com` (qualified against the root). -/
def exOrigin : CString := ⟨strBytes "example.com.", 12, 12⟩

/-- Initial zone context of `main` for a given origin: default TTL 86400,
zero-initialized static `owner`, `prev_owner` clear. -/
def zInit (o : CString) : ZState := ⟨o, 86400, ⟨[], 0, 0⟩, false⟩

example : qualify_domain (strBytes "example.com") (some ⟨[46], 1, 1⟩) = some exOrigin := by
  decide

example : sanitize_string (strBytes ":") = some ⟨strBytes "\\072", 1, 4⟩ := by decide
example : sanitize_string (strBytes "\\072") = some ⟨strBytes "H", 1, 1⟩ := by decide
example : str_to_uint (strBytes "2w1d") true = some 1296000 := by decide
example : str_to_uint (strBytes "5") false = some 5 := by decide
example : str_to_uint (strBytes "5x") true = none := by decide
example : sanitize_ip (strBytes "192.168.001.1") = some (strBytes "192.168.1.1") := by decide
example : sanitize_ip (strBytes "256.0.0.1") = none := by decide
example : sanitize_ip (strBytes "1.2.3") = none := by decide
example : qualify_domain (strBytes "host.") none = some ⟨strBytes "host.", 5, 5⟩ := by decide
example : qualify_domain (strBytes "@") (some ⟨strBytes "a.", 2, 2⟩) = some ⟨strBytes "a.", 2, 2⟩ := by
  decide
example : qualify_domain (strBytes "..") none = none := by decide
example : qualify_domain (strBytes "host") (some ⟨strBytes ".", 1, 1⟩) =
    some ⟨strBytes "host.", 5, 5⟩ := by decide

/-! ## Claims -/

/-- C1: the claim says that an entry with an unclosed parenthesis at
end-of-stream is fatal (nonzero exit, temporary file not renamed).  The
code contradicts its own intent: the `open parentheses at end of file`
check after the `do`/`while` loop is unreachable, because the `fgets`
failure branch returns the EOF sentinel from inside the loop first.  On
the stream `x ( y` (end of input with parenthesis depth 1), `tokenize`
returns EOF and the whole program completes successfully with no output
lines, i.e. the temp file is renamed and the exit status is 0. -/
theorem c1_open_paren_eof_not_fatal :
    tokenize (strBytes "x ( y") = .eof ∧
    runMain (strBytes "example.com") (strBytes "x ( y") = .ok [] [] := by
  constructor
  · decide
  · decide

/-- C2 counterexample: on the claimed input the program emits exactly one
line, but that line keeps the trailing dots of the qualified names and
carries no TTL field, so it does not begin with the text claimed by the
spec. -/
theorem c2_soa_claimed_prefix_false :
    runMain (strBytes "example.com")
      (strBytes "example.com. IN SOA ns1.example.com. hostmaster.example.com. 1 3600 900 604800 86400\n") =
      .ok [strBytes "Zexample.com.:ns1.example.com.:hostmaster.example.com.:1:3600:900:604800:86400"] [] ∧
    (strBytes "Zexample.com:ns1.example.com:hostmaster.example.com:1:3600:900:604800:86400").isPrefixOf
      (strBytes "Zexample.com.:ns1.example.com.:hostmaster.example.com.:1:3600:900:604800:86400") = false := by
  constructor
  · decide
  · decide

/-- C2 (amended): with origin `example.com`, the single SOA entry yields
exactly one output line, and that line is exactly
`Zexample.com.:ns1.example.com.:hostmaster.example.com.:1:3600:900:604800:86400`
— qualified names keep their trailing dot and no TTL field is appended
(the SOA encoding has no TTL field). -/
theorem c2_soa_end_to_end :
    runMain (strBytes "example.com")
      (strBytes "example.com. IN SOA ns1.example.com. hostmaster.example.com. 1 3600 900 604800 86400\n") =
      .ok [strBytes "Zexample.com.:ns1.example.com.:hostmaster.example.com.:1:3600:900:604800:86400"] [] := by
  decide

/-- C3 counterexample: a SOA record whose SERIAL token is `2147483647`
(which exceeds 2,147,483,646) is not rejected: the program completes
successfully (exit 0) and emits the record's output line. -/
theorem c3_serial_overflow_accepted :
    runMain (strBytes "example.com")
      (strBytes "example.com. IN SOA ns1.example.com. hostmaster.example.com. 2147483647 3600 900 604800 86400\n") =
      .ok [strBytes "Zexample.com.:ns1.example.com.:hostmaster.example.com.:2147483647:3600:900:604800:86400"] [] := by
  decide

/-! ## Decimal rendering lemmas -/

lemma valDec_append (a : Nat) (xs ys : List Nat) :
    valDec a (xs ++ ys) = valDec (valDec a xs) ys := by
  simp [valDec, List.foldl_append]

lemma natDecGo_ne_nil : ∀ f n, n < f → natDecGo f n ≠ [] := by
  intro f
  induction f with
  | zero => intro n h; omega
  | succ f ih =>
    intro n h
    simp only [natDecGo]
    split
    · simp
    · simp

lemma natDecGo_digits : ∀ f n, n < f → ∀ c ∈ natDecGo f n, isdigitB c = true := by
  intro f
  induction f with
  | zero => intro n h; omega
  | succ f ih =>
    intro n h c hc
    simp only [natDecGo] at hc
    split at hc
    · simp only [List.mem_singleton] at hc
      subst hc
      simp only [isdigitB, Bool.and_eq_true, decide_eq_true_eq]
      omega
    · rcases List.mem_append.1 hc with h1 | h1
      · exact ih (n / 10) (by omega) c h1
      · simp only [List.mem_singleton] at h1
        subst h1
        simp only [isdigitB, Bool.and_eq_true, decide_eq_true_eq]
        omega

lemma natDecGo_val : ∀ f n a, n < f →
    valDec a (natDecGo f n) = a * 10 ^ (natDecGo f n).length + n := by
  intro f
  induction f with
  | zero => intro n a h; omega
  | succ f ih =>
    intro n a h
    simp only [natDecGo]
    split
    · simp only [valDec, List.foldl_cons, List.foldl_nil, List.length_singleton]
      omega
    · rw [valDec_append, ih (n / 10) a (by omega)]
      simp only [valDec, List.foldl_cons, List.foldl_nil, List.length_append,
        List.length_singleton]
      rw [pow_succ]
      have h10 : 48 + n % 10 - 48 = n % 10 := by omega
      rw [h10]
      have := Nat.div_add_mod n 10
      ring_nf
      omega

lemma natDec_val (n : Nat) : valDec 0 (natDec n) = n := by
  have := natDecGo_val (n + 1) n 0 (by omega)
  simpa [natDec] using this

lemma natDec_ne_nil (n : Nat) : natDec n ≠ [] := natDecGo_ne_nil _ _ (by omega)

lemma natDec_digits (n : Nat) : ∀ c ∈ natDec n, isdigitB c = true :=
  natDecGo_digits _ _ (by omega)

/-- C3 (amended): the SERIAL field of an SOA record is parsed with
`str_to_uint` (plain decimal, wrapping modulo `2 ^ 32`) and is _not_
range-checked: any parseable serial — in particular one exceeding
2,147,483,646 — is accepted, and the record's output line is emitted with
that serial; only an unparseable SERIAL token is fatal.  (The
`> 2147483646` checks apply to REFRESH/RETRY/EXPIRE/MINIMUM, not SERIAL.) -/
theorem c3_serial_no_range_check (s : List Nat) (v : Nat)
    (hparse : str_to_uint s false = some v) (hbig : 2147483646 < v) :
    handle_entry 1
      [strBytes "example.com.", strBytes "IN", strBytes "SOA", strBytes "ns1.example.com.",
        strBytes "hostmaster.example.com.", s, strBytes "3600", strBytes "900",
        strBytes "604800", strBytes "86400"] exOrigin (zInit exOrigin) =
      .ok ⟨⟨exOrigin, 86400, ⟨strBytes "example.com.", 12, 12⟩, true⟩,
        [[90] ++ strBytes "example.com." ++ [58] ++ strBytes "ns1.example.com." ++ [58] ++
          strBytes "hostmaster.example.com." ++ [58] ++ natDec v ++ [58] ++ natDec 3600 ++
          [58] ++ natDec 900 ++ [58] ++ natDec 604800 ++ [58] ++ natDec 86400],
        [], 0⟩ := by
  have step : handle_entry 1
      [strBytes "example.com.", strBytes "IN", strBytes "SOA", strBytes "ns1.example.com.",
        strBytes "hostmaster.example.com.", s, strBytes "3600", strBytes "900",
        strBytes "604800", strBytes "86400"] exOrigin (zInit exOrigin) =
      match str_to_uint s false with
      | none => Except.error "invalid SERIAL in SOA RDATA"
      | some serial =>
        Except.ok ⟨⟨exOrigin, 86400, ⟨strBytes "example.com.", 12, 12⟩, true⟩,
          [[90] ++ strBytes "example.com." ++ [58] ++ strBytes "ns1.example.com." ++ [58] ++
            strBytes "hostmaster.example.com." ++ [58] ++ natDec serial ++ [58] ++
            natDec 3600 ++ [58] ++ natDec 900 ++ [58] ++ natDec 604800 ++ [58] ++
            natDec 86400],
          [], 0⟩ := rfl
  rw [step, hparse]

/-- Witness for C3: the amended theorem applied at the concrete serial
token `2147483647`. -/
theorem c3_serial_no_range_check_witness :
    handle_entry 1
      [strBytes "example.com.", strBytes "IN", strBytes "SOA", strBytes "ns1.example.com.",
        strBytes "hostmaster.example.com.", strBytes "2147483647", strBytes "3600",
        strBytes "900", strBytes "604800", strBytes "86400"] exOrigin (zInit exOrigin) =
      .ok ⟨⟨exOrigin, 86400, ⟨strBytes "example.com.", 12, 12⟩, true⟩,
        [[90] ++ strBytes "example.com." ++ [58] ++ strBytes "ns1.example.com." ++ [58] ++
          strBytes "hostmaster.example.com." ++ [58] ++ natDec 2147483647 ++ [58] ++
          natDec 3600 ++ [58] ++ natDec 900 ++ [58] ++ natDec 604800 ++ [58] ++
          natDec 86400],
        [], 0⟩ :=
  c3_serial_no_range_check (strBytes "2147483647") 2147483647 (by decide) (by decide)

/-! ## Canonical-string invariants (C4, C9, C10) -/

/-- Invariant maintained by `sanLoop` along its accumulator: the stored
length is the length of the text and exceeds the logical length by three
bytes per backslash, every stored byte is printable and not a colon, the
logical length respects the 255 ceiling, and an empty logical length means
empty text. -/
def SanInv (c : CString) : Prop :=
  c.real_len = c.text.length ∧
  c.real_len = c.len + 3 * c.text.count 92 ∧
  (∀ b ∈ c.text, 32 ≤ b ∧ b ≤ 126 ∧ b ≠ 58) ∧
  c.len ≤ 255 ∧
  (c.len = 0 → c.text = [])

lemma oct3_mem {n c : Nat} (h : c ∈ oct3 n) : 48 ≤ c ∧ c ≤ 55 := by
  simp only [oct3, List.mem_cons, List.mem_singleton, List.not_mem_nil, or_false] at h
  have h1 : n / 64 % 8 < 8 := Nat.mod_lt _ (by omega)
  have h2 : n / 8 % 8 < 8 := Nat.mod_lt _ (by omega)
  have h3 : n % 8 < 8 := Nat.mod_lt _ (by omega)
  rcases h with h | h | h <;> omega

lemma sanInv_pushRaw {acc : CString} (hinv : SanInv acc) {b : Nat}
    (hb : 32 ≤ b ∧ b ≤ 126 ∧ b ≠ 58 ∧ b ≠ 92) (hlen : acc.len ≠ 255) :
    SanInv (pushRaw acc b) := by
  obtain ⟨i1, i2, i3, i4, i5⟩ := hinv
  have hc : (acc.text ++ [b]).count 92 = acc.text.count 92 := by
    rw [List.count_append]
    simp [List.count_singleton', hb.2.2.2]
  refine ⟨?_, ?_, ?_, ?_, ?_⟩
  · simp [pushRaw, i1]
  · simp only [pushRaw, hc]
    omega
  · intro x hx
    simp only [pushRaw, List.mem_append, List.mem_singleton] at hx
    rcases hx with hx | hx
    · exact i3 x hx
    · subst hx
      exact ⟨hb.1, hb.2.1, hb.2.2.1⟩
  · simp only [pushRaw]
    omega
  · simp [pushRaw]

lemma sanInv_pushEsc {acc : CString} (hinv : SanInv acc) (n : Nat)
    (hlen : acc.len ≠ 255) : SanInv (pushEsc acc n) := by
  obtain ⟨i1, i2, i3, i4, i5⟩ := hinv
  have hc : (acc.text ++ 92 :: oct3 n).count 92 = acc.text.count 92 + 1 := by
    rw [List.count_append, List.count_cons]
    have : (oct3 n).count 92 = 0 := by
      rw [List.count_eq_zero]
      intro h
      have := oct3_mem h
      omega
    simp [this]
  refine ⟨?_, ?_, ?_, ?_, ?_⟩
  · simp [pushEsc, i1, oct3]
  · simp only [pushEsc, hc]
    omega
  · intro x hx
    simp only [pushEsc, List.mem_append, List.mem_cons] at hx
    rcases hx with hx | hx | hx
    · exact i3 x hx
    · subst hx
      omega
    · have := oct3_mem hx
      omega
  · simp only [pushEsc]
    omega
  · simp [pushEsc]

lemma sanLoop_inv (src : List Nat) (acc : CString) :
    ∀ out, sanLoop src acc = some out → SanInv acc → SanInv out := by
  induction src, acc using sanLoop.induct with
  | case1 acc =>
    intro out hout hinv
    rw [sanLoop.eq_def] at hout
    simp only [Option.some.injEq] at hout
    rwa [← hout]
  | case2 b rest acc h1 =>
    intro out hout hinv
    rw [sanLoop.eq_def] at hout
    simp [h1] at hout
  | case3 b rest acc h1 h2 ih =>
    intro out hout hinv
    rw [sanLoop.eq_def] at hout
    simp [h1, h2] at hout
    refine ih out hout (sanInv_pushRaw hinv ?_ h1)
    simp [isprintB] at h2
    omega
  | case4 acc h1 h2 =>
    intro out hout hinv
    rw [sanLoop.eq_def] at hout
    simp [h1, h2] at hout
  | case5 acc h1 d rest2 h2 h3 h4 ih =>
    intro out hout hinv
    rw [sanLoop.eq_def] at hout
    simp [h1, h2, h3, h4] at hout
    exact ih out hout (sanInv_pushEsc hinv d h1)
  | case6 acc h1 d rest2 h2 h3 h4 ih =>
    intro out hout hinv
    rw [sanLoop.eq_def] at hout
    simp [h1, h2, h3, h4] at hout
    refine ih out hout (sanInv_pushRaw hinv ?_ h1)
    simp [isprintB] at h3
    omega
  | case7 acc h1 d h2 d2 d3 rest h3 h4 h5 =>
    intro out hout hinv
    rw [sanLoop.eq_def] at hout
    simp [h1, h2, h3, h4, h5] at hout
  | case8 acc h1 d h2 d2 d3 rest h3 h4 h5 h6 ih =>
    intro out hout hinv
    rw [sanLoop.eq_def] at hout
    simp [h1, h2, h3, h4, h5, h6] at hout
    refine ih out hout (sanInv_pushRaw hinv ?_ h1)
    simp [isprintB] at h5
    omega
  | case9 acc h1 d h2 d2 d3 rest h3 h4 h5 h6 ih =>
    intro out hout hinv
    rw [sanLoop.eq_def] at hout
    simp [h1, h2, h3, h4, h5, h6] at hout
    exact ih out hout (sanInv_pushEsc hinv _ h1)
  | case10 acc h1 d h2 d2 d3 rest h3 h4 =>
    intro out hout hinv
    rw [sanLoop.eq_def] at hout
    simp [h1, h2, h3, h4] at hout
  | case11 acc h1 d rest2 h2 hshape h3 =>
    intro out hout hinv
    rcases rest2 with _ | ⟨x, _ | ⟨y, r⟩⟩
    · rw [sanLoop.eq_def] at hout
      simp [h1, h2, h3] at hout
    · rw [sanLoop.eq_def] at hout
      simp [h1, h2, h3] at hout
    · exact (hshape x y r rfl).elim
  | case12 b rest acc h1 h2 h3 ih =>
    intro out hout hinv
    rw [sanLoop.eq_def] at hout
    simp [h1, h2, h3] at hout
    exact ih out hout (sanInv_pushEsc hinv b h1)

lemma sanLoop_clean : ∀ (src : List Nat) (acc : CString),
    (∀ b ∈ src, 32 ≤ b ∧ b ≤ 126 ∧ b ≠ 58 ∧ b ≠ 92) →
    acc.len + src.length ≤ 255 →
    sanLoop src acc =
      some ⟨acc.text ++ src, acc.len + src.length, acc.real_len + src.length⟩ := by
  intro src
  induction src with
  | nil =>
    intro acc _ _
    simp [sanLoop]
  | cons c rest ih =>
    intro acc hgood hlen
    have hc := hgood c (List.mem_cons_self c rest)
    have e1 : ¬acc.len = 255 := by
      simp only [List.length_cons] at hlen
      omega
    have e2 : (isprintB c && c != 92 && c != 58) = true := by
      simp only [isprintB, Bool.and_eq_true, decide_eq_true_eq, bne_iff_ne]
      exact ⟨⟨⟨hc.1, hc.2.1⟩, hc.2.2.2⟩, hc.2.2.1⟩
    rw [sanLoop.eq_def]
    simp only [e1, e2, if_true, if_false, ite_true, ite_false, if_neg, if_pos,
      not_false_eq_true]
    rw [ih (pushRaw acc c) (fun b hb => hgood b (List.mem_cons_of_mem c hb))
      (by simp only [pushRaw, List.length_cons] at hlen ⊢; omega)]
    simp only [pushRaw, Option.some.injEq, CString.mk.injEq, List.length_cons,
      List.append_assoc, List.singleton_append]
    refine ⟨trivial, by omega, by omega⟩

/-- C4 counterexample: canonicalization is not idempotent.  On input `:`
the encoder succeeds with stored text `\072` (logical length 1, stored
length 4); re-running the encoder on that stored text succeeds but yields
the different stored text `H` (the octal escape `\072` is re-read as the
decimal escape 072 = 72 = `H`) with stored length 1. -/
theorem c4_not_idempotent_on_colon :
    sanitize_string (strBytes ":") = some ⟨strBytes "\\072", 1, 4⟩ ∧
    sanitize_string (strBytes "\\072") = some ⟨strBytes "H", 1, 1⟩ ∧
    (⟨strBytes "H", 1, 1⟩ : CString) ≠ ⟨strBytes "\\072", 1, 4⟩ := by
  refine ⟨by decide, by decide, by decide⟩

/-- C4 (amended): canonicalization is idempotent on inputs whose canonical
stored text contains no backslash: if `sanitize_string` succeeds on `src`
producing `out`, and the stored text of `out` has no backslash byte, then
running the encoder on that stored text succeeds and returns `out` itself
(same text, logical length and stored length).  (Idempotence does not hold
for stored texts with escapes in general: escapes are emitted in octal but
re-read as decimal, which changes the value whenever a digit 8 or 9 would
be needed — the `:` → `\072` → `H` counterexample above; escapes of values
0-7, such as `\001`, do re-encode to themselves.) -/
theorem c4_idempotent_without_escapes (src : List Nat) (out : CString)
    (h : sanitize_string src = some out) (hnb : 92 ∉ out.text) :
    sanitize_string out.text = some out := by
  have hinv : SanInv out := by
    refine sanLoop_inv src ⟨[], 0, 0⟩ out h ⟨rfl, rfl, ?_, by exact Nat.zero_le 255, fun _ => rfl⟩
    intro b hb
    simp at hb
  obtain ⟨t, l, r⟩ := out
  obtain ⟨i1, i2, i3, i4, i5⟩ := hinv
  simp only at i1 i2 i3 i4 i5 hnb ⊢
  have hcount : t.count 92 = 0 := List.count_eq_zero.mpr hnb
  have hgood : ∀ b ∈ t, 32 ≤ b ∧ b ≤ 126 ∧ b ≠ 58 ∧ b ≠ 92 := by
    intro b hb
    have h3 := i3 b hb
    refine ⟨h3.1, h3.2.1, h3.2.2, fun e => hnb (e ▸ hb)⟩
  have hclean := sanLoop_clean t ⟨[], 0, 0⟩ hgood (by show 0 + t.length ≤ 255; omega)
  rw [sanitize_string, hclean]
  simp only [Option.some.injEq, CString.mk.injEq, List.nil_append]
  refine ⟨trivial, by omega, by omega⟩

/-- Witness for C4: the amended theorem applied to the concrete input
`abc`, whose canonical stored text is escape-free. -/
theorem c4_idempotent_without_escapes_witness :
    sanitize_string (strBytes "abc") = some ⟨strBytes "abc", 3, 3⟩ ∧
    sanitize_string ((⟨strBytes "abc", 3, 3⟩ : CString).text) = some ⟨strBytes "abc", 3, 3⟩ :=
  ⟨by decide,
   c4_idempotent_without_escapes (strBytes "abc") ⟨strBytes "abc", 3, 3⟩ (by decide) (by decide)⟩

/-! C6 -/

theorem c6_ttl_fallback (f : Nat) (top : CString) (st : ZState) (t : List Nat)
    (h : str_to_uint t true = none ∨ ∃ v, str_to_uint t true = some v ∧ 2147483646 < v) :
    handle_entry (f + 1) [strBytes "$TTL", t] top st =
      .ok ⟨{ st with ttl := 86400 }, [], ["invalid $TTL value; using default instead"], 0⟩ := by
  have step : handle_entry (f + 1) [strBytes "$TTL", t] top st =
      match str_to_uint t true with
      | none =>
        Except.ok ⟨{ st with ttl := 86400 }, [],
          ["invalid $TTL value; using default instead"], 0⟩
      | some v =>
        if v > 2147483646 then
          Except.ok ⟨{ st with ttl := 86400 }, [],
            ["invalid $TTL value; using default instead"], 0⟩
        else Except.ok ⟨{ st with ttl := v }, [], [], 0⟩ := rfl
  rcases h with h | ⟨v, hv, hgt⟩
  · rw [step, h]
  · rw [step, hv]
    simp [hgt]

theorem c6_ttl_fallback_witness :
    handle_entry 1 [strBytes "$TTL", strBytes "3000000000"] exOrigin (zInit exOrigin) =
      .ok ⟨{ zInit exOrigin with ttl := 86400 }, [],
        ["invalid $TTL value; using default instead"], 0⟩ :=
  c6_ttl_fallback 0 exOrigin (zInit exOrigin) (strBytes "3000000000")
    (Or.inr ⟨3000000000, by decide, by decide⟩)

/-! C5 helpers -/

lemma toLowerB_ne_dollar {c : Nat} (h : c ≠ 36) : toLowerB c ≠ 36 := by
  unfold toLowerB
  split
  next hcond =>
    simp only [Bool.and_eq_true, decide_eq_true_eq] at hcond
    omega
  next => exact h

lemma caseEq_dollar {t : List Nat} (h : t.headD 0 ≠ 36) (r : List Nat) :
    caseEq t (36 :: r) = false := by
  cases t with
  | nil => rfl
  | cons c cs =>
    simp only [List.headD_cons] at h
    have h1 : (toLowerB c == toLowerB 36) = false := by
      have : toLowerB (36 : Nat) = 36 := rfl
      rw [this]
      exact beq_eq_false_iff_ne.mpr (toLowerB_ne_dollar h)
    simp only [caseEq, h1, Bool.false_and]

lemma ttlWarn_snd (d v : Nat) :
    (ttlWarn d v).2 = [] ∨ (ttlWarn d v).2 = ["invalid TTL in RR"] := by
  unfold ttlWarn
  split
  · right; rfl
  · left; rfl

lemma ttlProbe_warns (tokens : List (List Nat)) (st : ZState) :
    (ttlProbe tokens st).2.2 = [] ∨ (ttlProbe tokens st).2.2 = ["invalid TTL in RR"] := by
  unfold ttlProbe
  repeat' split
  all_goals first
    | (left; rfl)
    | exact ttlWarn_snd st.ttl _

lemma handleSOA_warns {tokens : List (List Nat)} {next : Nat} {warns0 : List String}
    {st : ZState} {o : EOut} (h : handleSOA tokens next warns0 st = .ok o) :
    o.warns = warns0 := by
  unfold handleSOA at h
  repeat' split at h
  all_goals first
    | (injection h with h2; rw [← h2])
    | injection h

lemma handleNS_warns {tokens : List (List Nat)} {next ttlv : Nat} {warns0 : List String}
    {st : ZState} {o : EOut} (h : handleNS tokens next ttlv warns0 st = .ok o) :
    o.warns = warns0 := by
  unfold handleNS at h
  repeat' split at h
  all_goals first
    | (injection h with h2; rw [← h2])
    | injection h

lemma handleMX_warns {tokens : List (List Nat)} {next ttlv : Nat} {warns0 : List String}
    {st : ZState} {o : EOut} (h : handleMX tokens next ttlv warns0 st = .ok o) :
    o.warns = warns0 := by
  unfold handleMX at h
  repeat' split at h
  all_goals first
    | (injection h with h2; rw [← h2])
    | injection h

lemma handleA_warns {tokens : List (List Nat)} {next ttlv : Nat} {warns0 : List String}
    {st : ZState} {o : EOut} (h : handleA tokens next ttlv warns0 st = .ok o) :
    o.warns = warns0 := by
  unfold handleA at h
  repeat' split at h
  all_goals first
    | (injection h with h2; rw [← h2])
    | injection h

lemma handleCNAME_warns {tokens : List (List Nat)} {next ttlv : Nat} {warns0 : List String}
    {st : ZState} {o : EOut} (h : handleCNAME tokens next ttlv warns0 st = .ok o) :
    o.warns = warns0 := by
  unfold handleCNAME at h
  repeat' split at h
  all_goals first
    | (injection h with h2; rw [← h2])
    | injection h

lemma handlePTR_warns {tokens : List (List Nat)} {next ttlv : Nat} {warns0 : List String}
    {st : ZState} {o : EOut} (h : handlePTR tokens next ttlv warns0 st = .ok o) :
    o.warns = warns0 := by
  unfold handlePTR at h
  repeat' split at h
  all_goals first
    | (injection h with h2; rw [← h2])
    | injection h

lemma handleTXT_warns {tokens : List (List Nat)} {next ttlv : Nat} {warns0 : List String}
    {st : ZState} {o : EOut} (h : handleTXT tokens next ttlv warns0 st = .ok o) :
    o.warns = warns0 := by
  unfold handleTXT at h
  repeat' split at h
  all_goals first
    | (injection h with h2; rw [← h2])
    | injection h

lemma handleSRV_warns {tokens : List (List Nat)} {next ttlv : Nat} {warns0 : List String}
    {st : ZState} {o : EOut} (h : handleSRV tokens next ttlv warns0 st = .ok o) :
    o.warns = warns0 := by
  unfold handleSRV at h
  repeat' split at h
  all_goals first
    | (injection h with h2; rw [← h2])
    | injection h

lemma recordTail_no_outzone {tokens : List (List Nat)} {st : ZState} {o : EOut}
    (h : recordTail tokens st = .ok o) : "ignoring out-of-zone data" ∉ o.warns := by
  simp only [recordTail] at h
  rcases ttlProbe_warns tokens st with hw | hw <;>
  · repeat' split at h
    all_goals first
      | (rw [handleSOA_warns h, hw]; decide)
      | (rw [handleNS_warns h, hw]; decide)
      | (rw [handleMX_warns h, hw]; decide)
      | (rw [handleA_warns h, hw]; decide)
      | (rw [handleCNAME_warns h, hw]; decide)
      | (rw [handlePTR_warns h, hw]; decide)
      | (rw [handleTXT_warns h, hw]; decide)
      | (rw [handleSRV_warns h, hw]; decide)
      | (simp only [Except.ok.injEq] at h; rw [← h, hw]; simp)

/-- C5: (1) when the top origin is not the root, a record whose qualified
owner fails the zone-containment test is dropped with the warning
`ignoring out-of-zone data`: the call returns successfully (not fatal)
with return value 1 and zero output lines, leaving only the static `owner`
updated; (2) when the top origin is the root `.`, the containment check is
skipped and no record entry is ever dropped as out-of-zone. -/
theorem c5_out_of_zone_drop :
    (∀ (f : Nat) (tokens : List (List Nat)) (top : CString) (st : ZState) (ow : CString),
        3 ≤ tokens.length →
        (tokAt tokens 0).headD 0 ≠ 36 →
        tokAt tokens 0 ≠ strBytes " " →
        qualify_domain (tokAt tokens 0) (some st.cur_origin) = some ow →
        top.text ≠ [46] →
        outOfZone top ow = true →
        handle_entry (f + 1) tokens top st =
          .ok ⟨{ st with owner := ow }, [], ["ignoring out-of-zone data"], 1⟩) ∧
    (∀ (f : Nat) (tokens : List (List Nat)) (top : CString) (st : ZState) (o : EOut),
        (tokAt tokens 0).headD 0 ≠ 36 →
        top.text = [46] →
        handle_entry (f + 1) tokens top st = .ok o →
        "ignoring out-of-zone data" ∉ o.warns) := by
  constructor
  · intro f tokens top st ow hlen h0 hblank hq htop hz
    have e1 : tokens.isEmpty = false := by
      cases tokens with
      | nil => simp at hlen
      | cons a l => rfl
    have e2 : caseEq (tokAt tokens 0) (strBytes "$ORIGIN") = false :=
      caseEq_dollar h0 (strBytes "ORIGIN")
    have e3 : caseEq (tokAt tokens 0) (strBytes "$TTL") = false :=
      caseEq_dollar h0 (strBytes "TTL")
    have e4 : caseEq (tokAt tokens 0) (strBytes "$GENERATE") = false :=
      caseEq_dollar h0 (strBytes "GENERATE")
    have e5 : caseEq (tokAt tokens 0) (strBytes "$INCLUDE") = false :=
      caseEq_dollar h0 (strBytes "INCLUDE")
    have e6 : ((tokAt tokens 0).headD 0 == 36) = false := beq_eq_false_iff_ne.mpr h0
    have e7 : (tokAt tokens 0 != strBytes " ") = true := bne_iff_ne.mpr hblank
    have e8 : (top.text != [46]) = true := bne_iff_ne.mpr htop
    have e9 : ¬ tokens.length < 3 := by omega
    simp only [handle_entry, handleRecord, e1, e2, e3, e4, e5, e6, e7, e8, e9, hq, hz,
      Bool.false_eq_true, if_false, if_true, ite_true, ite_false]
  · intro f tokens top st o h0 htop h
    have e2 : caseEq (tokAt tokens 0) (strBytes "$ORIGIN") = false :=
      caseEq_dollar h0 (strBytes "ORIGIN")
    have e3 : caseEq (tokAt tokens 0) (strBytes "$TTL") = false :=
      caseEq_dollar h0 (strBytes "TTL")
    have e4 : caseEq (tokAt tokens 0) (strBytes "$GENERATE") = false :=
      caseEq_dollar h0 (strBytes "GENERATE")
    have e5 : caseEq (tokAt tokens 0) (strBytes "$INCLUDE") = false :=
      caseEq_dollar h0 (strBytes "INCLUDE")
    have e6 : ((tokAt tokens 0).headD 0 == 36) = false := beq_eq_false_iff_ne.mpr h0
    simp only [handle_entry, e2, e3, e4, e5, e6, Bool.false_eq_true, if_false] at h
    split at h
    · injection h with h2
      rw [← h2]
      simp
    · simp only [handleRecord] at h
      split at h
      · injection h
      · split at h
        · split at h
          · injection h
          · rw [htop] at h
            simp only [bne_self_eq_false, Bool.false_eq_true, if_false] at h
            exact recordTail_no_outzone h
        · split at h
          · injection h
          · exact recordTail_no_outzone h

/-- Witness for C5: part one applied to the record `other.org. IN NS
ns1.example.com.` under top origin `example.com.` (dropped, one warning,
no lines), and part two applied to the same record under the root top
origin (not dropped). -/
theorem c5_out_of_zone_drop_witness :
    handle_entry 1
      [strBytes "other.org.", strBytes "IN", strBytes "NS", strBytes "ns1.example.com."]
      exOrigin (zInit exOrigin) =
      .ok ⟨{ zInit exOrigin with owner := ⟨strBytes "other.org.", 10, 10⟩ }, [],
        ["ignoring out-of-zone data"], 1⟩ ∧
    "ignoring out-of-zone data" ∉
      (EOut.mk ⟨⟨[46], 1, 1⟩, 86400, ⟨strBytes "other.org.", 10, 10⟩, true⟩
        [strBytes "&other.org.::ns1.example.com.:86400"] [] 0).warns :=
  ⟨c5_out_of_zone_drop.1 0
      [strBytes "other.org.", strBytes "IN", strBytes "NS", strBytes "ns1.example.com."]
      exOrigin (zInit exOrigin) ⟨strBytes "other.org.", 10, 10⟩
      (by decide) (by decide) (by decide) (by decide) (by decide) (by decide),
   c5_out_of_zone_drop.2 0
      [strBytes "other.org.", strBytes "IN", strBytes "NS", strBytes "ns1.example.com."]
      ⟨[46], 1, 1⟩ (zInit ⟨[46], 1, 1⟩)
      (EOut.mk ⟨⟨[46], 1, 1⟩, 86400, ⟨strBytes "other.org.", 10, 10⟩, true⟩
        [strBytes "&other.org.::ns1.example.com.:86400"] [] 0)
      (by decide) rfl rfl⟩

/-! ## Qualified-domain lemmas (C9, C10) -/

/-- The last stored byte of a non-empty list, as read through `getD` at
index `length - 1` (the C idiom `text[real_len - 1]`). -/
lemma getLast?_eq_getD {l : List Nat} (hne : l ≠ []) :
    l.getLast? = some (l.getD (l.length - 1) 0) := by
  have hlt : l.length - 1 < l.length := by
    rcases l with _ | ⟨x, xs⟩
    · exact absurd rfl hne
    · simp
  rw [List.getLast?_eq_getElem?, List.getD_eq_getElem?_getD, List.getElem?_eq_getElem hlt]
  rfl

/-- Base invariant for a fresh accumulator. -/
lemma sanInv_start : SanInv ⟨[], 0, 0⟩ := by
  refine ⟨rfl, rfl, ?_, by exact Nat.zero_le 255, fun _ => rfl⟩
  intro b hb
  simp at hb

/-- C9 counterexample: the name `..` canonicalizes to stored text `..`,
which is non-empty and ends in `.`, yet `qualify_domain` rejects it
(empty label) instead of returning it unchanged. -/
theorem c9_dotdot_absolute_rejected :
    sanitize_string (strBytes "..") = some ⟨strBytes "..", 2, 2⟩ ∧
    (strBytes "..").getLast? = some 46 ∧
    qualify_domain (strBytes "..") none = none ∧
    qualify_domain (strBytes "..") (some ⟨[46], 1, 1⟩) = none := by
  refine ⟨by decide, by decide, by decide, by decide⟩

/-- C9 (amended): qualify of `@` returns the origin verbatim for every
origin with nonzero logical length; and every name whose canonical form is
non-empty, ends in `.`, does not start with `.` followed by another byte,
and contains no `..`, is returned unchanged (same text and both lengths)
for every origin, including an empty or missing one. -/
theorem c9_qualify_at_and_absolute :
    (∀ o : CString, o.len ≠ 0 → qualify_domain [64] (some o) = some o) ∧
    (∀ (name : List Nat) (sname : CString) (origin : Option CString),
        sanitize_string name = some sname →
        sname.text ≠ [] →
        sname.text.getLast? = some 46 →
        ¬(sname.text.headD 0 = 46 ∧ sname.text.getD 1 0 ≠ 0) →
        hasDotDot sname.text = false →
        qualify_domain name origin = some sname) := by
  constructor
  · intro o ho
    have step : qualify_domain [64] (some o) = if o.len == 0 then none else some o := rfl
    rw [step, if_neg]
    simp only [beq_iff_eq]
    exact ho
  · intro name sname origin hsan hne hlast hhead hdd
    obtain ⟨i1, i2, i3, i4, i5⟩ := sanLoop_inv name ⟨[], 0, 0⟩ sname hsan sanInv_start
    have hlen : sname.len ≠ 0 := fun e => hne (i5 e)
    have c1 : (sname.len != 0) = true := bne_iff_ne.mpr hlen
    have c2 : (sname.text.headD 0 == 46 && sname.text.getD 1 0 != 0) = false := by
      rcases Decidable.em (sname.text.headD 0 = 46) with h | h
      · have hz : sname.text.getD 1 0 = 0 := by
          by_contra hg
          exact hhead ⟨h, hg⟩
        rw [hz]
        rw [bne_self_eq_false, Bool.and_false]
      · rw [beq_eq_false_iff_ne.mpr h, Bool.false_and]
    have hat : ¬(sname.text.headD 0 = 64 ∧ sname.text.getD 1 0 = 0) := by
      rintro ⟨ha, hb⟩
      rcases htext : sname.text with _ | ⟨x, xs⟩
      · exact hne htext
      · rcases xs with _ | ⟨y, ys⟩
        · rw [htext] at ha hlast
          simp only [List.headD_cons] at ha
          rw [List.getLast?_singleton] at hlast
          injection hlast with hlast
          omega
        · have hy := i3 y (by rw [htext]; simp)
          rw [htext] at hb
          simp only [List.getD_cons_succ, List.getD_cons_zero] at hb
          omega
    have c4 : (sname.text.headD 0 == 64 && sname.text.getD 1 0 == 0) = false := by
      rcases Decidable.em (sname.text.headD 0 = 64) with h | h
      · rcases Decidable.em (sname.text.getD 1 0 = 0) with h2 | h2
        · exact absurd ⟨h, h2⟩ hat
        · rw [beq_eq_false_iff_ne.mpr h2, Bool.and_false]
      · rw [beq_eq_false_iff_ne.mpr h, Bool.false_and]
    have c5 : (sname.text.getD (sname.real_len - 1) 0 == 46) = true := by
      rw [i1]
      rw [getLast?_eq_getD hne] at hlast
      injection hlast with hlast
      rw [hlast]
      rfl
    simp only [qualify_domain, hsan, c1, c2, c4, c5, hdd, Bool.false_eq_true, if_true,
      if_false, ite_true, ite_false]

/-- Witness for C9: both parts applied at concrete inputs: `@` with origin
`a.`, and the absolute name `host.` with a missing origin. -/
theorem c9_qualify_at_and_absolute_witness :
    qualify_domain [64] (some ⟨strBytes "a.", 2, 2⟩) = some ⟨strBytes "a.", 2, 2⟩ ∧
    qualify_domain (strBytes "host.") none = some ⟨strBytes "host.", 5, 5⟩ :=
  ⟨c9_qualify_at_and_absolute.1 ⟨strBytes "a.", 2, 2⟩ (by decide),
   c9_qualify_at_and_absolute.2 (strBytes "host.") ⟨strBytes "host.", 5, 5⟩ none
     (by decide) (by decide) (by decide) (by decide) (by decide)⟩

/-- A fully-qualified stored domain: non-empty text ending in `.`. -/
def isFqdn (o : CString) : Prop := o.text ≠ [] ∧ o.text.getLast? = some 46

/-- C10: the root seed origin of `main` is non-empty and dot-terminated
with nonzero logical length, and `qualify_domain` preserves this shape:
whenever the supplied origin satisfies it (when present and non-empty),
every successful result is non-empty, ends in a trailing `.`, and has
nonzero logical length — so the initial origin qualified from the
command line, every `$ORIGIN` update, every record owner and every
qualified RDATA domain is a non-empty dot-terminated name. -/
theorem c10_qualify_fqdn_invariant :
    (isFqdn ⟨[46], 1, 1⟩ ∧ (⟨[46], 1, 1⟩ : CString).len ≠ 0) ∧
    (∀ (name : List Nat) (origin : Option CString) (out : CString),
        (∀ o, origin = some o → o.len ≠ 0 → isFqdn o) →
        qualify_domain name origin = some out → isFqdn out ∧ out.len ≠ 0) := by
  constructor
  · exact ⟨⟨by decide, by decide⟩, by decide⟩
  · intro name origin out horig h
    rcases hsan : sanitize_string name with _ | sname
    · rw [qualify_domain.eq_def] at h
      rw [hsan] at h
      exact Option.noConfusion (h : (none : Option CString) = some out)
    · obtain ⟨i1, i2, i3, i4, i5⟩ := sanLoop_inv name ⟨[], 0, 0⟩ sname hsan sanInv_start
      simp only [qualify_domain, hsan] at h
      split at h
      · -- sname.len ≠ 0
        rename_i hlen0
        have hlen : sname.len ≠ 0 := by
          simp only [bne_iff_ne] at hlen0
          exact hlen0
        have hne : sname.text ≠ [] := by
          intro e
          apply hlen
          have hc : List.count 92 sname.text = 0 := by rw [e]; rfl
          have hl : sname.text.length = 0 := by rw [e]; rfl
          omega
        split at h
        · cases h
        · split at h
          · cases h
          · split at h
            · -- '@' branch: return the origin
              split at h
              · cases h
              · rename_i _xo o
                split at h
                · cases h
                · rename_i holen
                  injection h with h
                  subst h
                  have ho : o.len ≠ 0 := by simpa using holen
                  exact ⟨horig o rfl ho, ho⟩
            · split at h
              · -- absolute name: returned as-is
                rename_i habs
                injection h with h
                subst h
                refine ⟨⟨hne, ?_⟩, hlen⟩
                rw [getLast?_eq_getD hne, ← i1]
                simp only [beq_iff_eq] at habs
                rw [habs]
              · -- relative name
                split at h
                · cases h
                · rename_i _xo o
                  split at h
                  · cases h
                  · rename_i holen
                    have ho : o.len ≠ 0 := by simpa using holen
                    have hofq := horig o rfl ho
                    split at h
                    · -- origin is the root: append a dot
                      split at h
                      · cases h
                      · injection h with h
                        subst h
                        refine ⟨⟨by simp, ?_⟩, by simp⟩
                        exact List.getLast?_concat _
                    · -- general origin: name ++ "." ++ origin
                      split at h
                      · cases h
                      · injection h with h
                        subst h
                        refine ⟨⟨by simp, ?_⟩, by simp⟩
                        rw [List.getLast?_append_cons]
                        rcases hot : o.text with _ | ⟨y, ys⟩
                        · exact absurd hot hofq.1
                        · rw [List.getLast?_cons_cons, ← hot]
                          exact hofq.2
      · -- sname empty: return the origin
        split at h
        · cases h
        · rename_i _xo o
          split at h
          · cases h
          · rename_i holen
            injection h with h
            subst h
            have ho : o.len ≠ 0 := by simpa using holen
            exact ⟨horig o rfl ho, ho⟩

/-- Witness for C10: the preservation part applied at the command-line
qualification of `example.com` against the root seed. -/
theorem c10_qualify_fqdn_invariant_witness :
    isFqdn exOrigin ∧ exOrigin.len ≠ 0 :=
  c10_qualify_fqdn_invariant.2 (strBytes "example.com") (some ⟨[46], 1, 1⟩) exOrigin
    (fun o ho _ => by rw [Option.some.injEq] at ho; rw [← ho]; exact ⟨by decide, by decide⟩)
    (by decide)

/-! ## Time-format parsing (C7) -/

/-- Rendered form of a sequence of `<decimal><unit>` pairs. -/
def renderTime (ps : List (Nat × Nat)) : List Nat :=
  (ps.map fun p => natDec p.1 ++ [p.2]).flatten

/-- Mathematical value of a sequence of `<decimal><unit>` pairs. -/
def timeVal (ps : List (Nat × Nat)) : Nat :=
  (ps.map fun p => p.1 * (unitMult p.2).getD 0).sum

lemma valDec_congr_mod (ds : List Nat) :
    ∀ a b, a % U32 = b % U32 → valDec a ds % U32 = valDec b ds % U32 := by
  induction ds with
  | nil =>
    intro a b h
    simpa [valDec] using h
  | cons c ds ih =>
    intro a b h
    simp only [valDec, List.foldl_cons] at *
    apply ih
    have h10 : a * 10 % U32 = b * 10 % U32 := by
      conv_lhs => rw [Nat.mul_mod, h, ← Nat.mul_mod]
    conv_lhs => rw [Nat.add_mod, h10, ← Nat.add_mod]

lemma s2u_digits : ∀ (ds : List Nat), ds ≠ [] → (∀ c ∈ ds, isdigitB c = true) →
    ∀ (rest : List Nat) (allow it ip : Bool) (total part : Nat),
    s2u (ds ++ rest) allow it ip total part =
      s2u rest allow it true total (valDec part ds % U32) := by
  intro ds
  induction ds with
  | nil => intro h; exact absurd rfl h
  | cons c ds ih =>
    intro _ hd rest allow it ip total part
    have hc : isdigitB c = true := hd c (List.mem_cons_self c ds)
    rw [List.cons_append, s2u.eq_def]
    simp only [hc, if_true, ite_true]
    rcases ds with _ | ⟨c2, ds2⟩
    · simp [valDec]
    · rw [ih (by simp) (fun x hx => hd x (List.mem_cons_of_mem c hx)) rest allow it true
        total ((part * 10 + (c - 48)) % U32)]
      have hm : valDec ((part * 10 + (c - 48)) % U32) (c2 :: ds2) % U32 =
          valDec (part * 10 + (c - 48)) (c2 :: ds2) % U32 :=
        valDec_congr_mod (c2 :: ds2) _ _ (Nat.mod_mod_of_dvd _ dvd_rfl)
      rw [hm]
      rfl

lemma unitMult_not_digit {u m : Nat} (h : unitMult u = some m) : isdigitB u = false := by
  unfold unitMult at h
  repeat' split at h
  all_goals first
    | (rename_i hc
       simp only [Bool.or_eq_true, beq_iff_eq] at hc
       rcases hc with hc | hc <;> subst hc <;> rfl)
    | cases h

lemma s2u_pairs : ∀ (ps : List (Nat × Nat)), (∀ p ∈ ps, (unitMult p.2).isSome) →
    ∀ (rest : List Nat) (it : Bool) (total : Nat), total < U32 →
    s2u (renderTime ps ++ rest) true it false total 0 =
      s2u rest true (it || !ps.isEmpty) false ((total + timeVal ps) % U32) 0 := by
  intro ps
  induction ps with
  | nil =>
    intro _ rest it total htot
    simp [renderTime, timeVal, Nat.mod_eq_of_lt htot]
  | cons p ps ih =>
    intro hwf rest it total htot
    obtain ⟨v, u⟩ := p
    have hu : (unitMult u).isSome := hwf (v, u) (List.mem_cons_self _ _)
    obtain ⟨m, hm⟩ := Option.isSome_iff_exists.mp hu
    have hnd : isdigitB u = false := unitMult_not_digit hm
    have hr : renderTime ((v, u) :: ps) ++ rest =
        natDec v ++ (u :: (renderTime ps ++ rest)) := by
      simp [renderTime, List.append_assoc]
    rw [hr, s2u_digits (natDec v) (natDec_ne_nil v) (natDec_digits v), natDec_val,
      s2u.eq_def]
    simp only [hnd, Bool.false_eq_true, if_false, ite_false, Bool.not_true, Bool.or_self,
      Bool.not_false, Bool.or_false, Bool.false_or, hm]
    rw [ih (fun q hq => hwf q (List.mem_cons_of_mem _ hq)) rest true
      ((total + v % U32 * m) % U32) (Nat.mod_lt _ (by decide))]
    have hval : ((total + v % U32 * m) % U32 + timeVal ps) % U32 =
        (total + timeVal ((v, u) :: ps)) % U32 := by
      have h1 : v % U32 * m ≡ v * m [MOD U32] := (Nat.mod_modEq v U32).mul_right m
      have h2 : total + v % U32 * m + timeVal ps ≡ total + v * m + timeVal ps [MOD U32] :=
        (h1.add_left total).add_right (timeVal ps)
      calc ((total + v % U32 * m) % U32 + timeVal ps) % U32
          = (total + v % U32 * m + timeVal ps) % U32 := Nat.mod_add_mod _ _ _
        _ = (total + v * m + timeVal ps) % U32 := h2
        _ = (total + timeVal ((v, u) :: ps)) % U32 := by
            simp [timeVal, hm, Nat.add_assoc]
    rw [hval]
    simp

lemma s2u_nondigit_noallow : ∀ (s : List Nat) (it ip : Bool) (total part : Nat),
    (∃ c ∈ s, isdigitB c = false) → s2u s false it ip total part = none := by
  intro s
  induction s with
  | nil =>
    intro it ip total part hex
    simp at hex
  | cons c rest ih =>
    intro it ip total part hex
    rw [s2u.eq_def]
    by_cases hc : isdigitB c = true
    · simp only [hc, if_true, ite_true]
      apply ih
      rcases hex with ⟨x, hx, hxd⟩
      rcases List.mem_cons.mp hx with rfl | hx
      · exact absurd hc (by simp [hxd])
      · exact ⟨x, hx, hxd⟩
    · simp [hc]

/-- C7: `str_to_uint` with time format maps a non-empty sequence of
`<decimal><unit>` pairs (unit letter recognized by `unitMult`,
case-insensitively) to the sum of value times multiplier modulo `2 ^ 32`;
`2w1d` parses to 1296000 and plain `5` without time format to 5; it fails
on empty input, fails on any non-digit byte when time format is disabled,
fails on a dangling numeric part after the unit pairs, and fails on an
unrecognized unit letter such as in `5x`. -/
theorem c7_str_to_uint_spec :
    (∀ ps : List (Nat × Nat), ps ≠ [] → (∀ p ∈ ps, (unitMult p.2).isSome) →
        str_to_uint (renderTime ps) true = some (timeVal ps % U32)) ∧
    str_to_uint (strBytes "2w1d") true = some 1296000 ∧
    str_to_uint (strBytes "5") false = some 5 ∧
    (∀ allow : Bool, str_to_uint [] allow = none) ∧
    (∀ s : List Nat, (∃ c ∈ s, isdigitB c = false) → str_to_uint s false = none) ∧
    (∀ (ps : List (Nat × Nat)) (ds : List Nat), ps ≠ [] →
        (∀ p ∈ ps, (unitMult p.2).isSome) → ds ≠ [] → (∀ c ∈ ds, isdigitB c = true) →
        str_to_uint (renderTime ps ++ ds) true = none) ∧
    (∀ (ps : List (Nat × Nat)) (ds : List Nat) (u : Nat) (rest : List Nat),
        (∀ p ∈ ps, (unitMult p.2).isSome) → ds ≠ [] → (∀ c ∈ ds, isdigitB c = true) →
        isdigitB u = false → unitMult u = none →
        str_to_uint (renderTime ps ++ (ds ++ u :: rest)) true = none) := by
  have hRTne : ∀ ps : List (Nat × Nat), ps ≠ [] → renderTime ps ≠ [] := by
    intro ps hps
    rcases ps with _ | ⟨⟨v, u⟩, ps⟩
    · exact absurd rfl hps
    · have hu : u ∈ renderTime ((v, u) :: ps) := by simp [renderTime]
      intro he
      rw [he] at hu
      simp at hu
  refine ⟨?_, by decide, by decide, ?_, ?_, ?_, ?_⟩
  · intro ps hps hwf
    rw [str_to_uint, if_neg (by simp [hRTne ps hps])]
    rw [← List.append_nil (renderTime ps),
      s2u_pairs ps hwf [] false 0 (by decide)]
    have : ps.isEmpty = false := by
      rcases ps with _ | _
      · exact absurd rfl hps
      · rfl
    rw [this, Nat.zero_add]
    rfl
  · intro allow
    rfl
  · intro s hex
    have hne : s ≠ [] := by
      rcases hex with ⟨x, hx, _⟩
      exact List.ne_nil_of_mem hx
    rw [str_to_uint, if_neg (by simp [hne])]
    exact s2u_nondigit_noallow s false false 0 0 hex
  · intro ps ds hps hwf hds hdd
    rw [str_to_uint, if_neg (by simp [hRTne ps hps])]
    rw [s2u_pairs ps hwf ds false 0 (by decide)]
    rw [← List.append_nil ds, s2u_digits ds hds hdd]
    have : ps.isEmpty = false := by
      rcases ps with _ | _
      · exact absurd rfl hps
      · rfl
    rw [this]
    rfl
  · intro ps ds u rest hwf hds hdd hu hum
    have hne : (renderTime ps ++ (ds ++ u :: rest)) ≠ [] := by
      simp only [ne_eq, List.append_eq_nil]
      rintro ⟨-, h2, -⟩
      exact hds h2
    rw [str_to_uint, if_neg (by simp [hne])]
    rw [s2u_pairs ps hwf (ds ++ u :: rest) false 0 (by decide)]
    rw [s2u_digits ds hds hdd]
    rw [s2u.eq_def]
    simp [hu, hum]

/-- Witness for C7: the universally quantified conjuncts applied at
concrete inputs: `2w1d` as the pair list `[(2,w),(1,d)]`; `ab` with time
format disabled; `2w1` (dangling part); `5x` (unrecognized unit). -/
theorem c7_str_to_uint_spec_witness :
    str_to_uint (renderTime [(2, 119), (1, 100)]) true =
      some (timeVal [(2, 119), (1, 100)] % U32) ∧
    str_to_uint (strBytes "ab") false = none ∧
    str_to_uint (renderTime [(2, 119)] ++ strBytes "1") true = none ∧
    str_to_uint (renderTime [] ++ (strBytes "5" ++ 120 :: [])) true = none :=
  ⟨c7_str_to_uint_spec.1 [(2, 119), (1, 100)] (by decide) (by decide),
   c7_str_to_uint_spec.2.2.2.2.1 (strBytes "ab") ⟨97, by decide, by decide⟩,
   c7_str_to_uint_spec.2.2.2.2.2.1 [(2, 119)] (strBytes "1") (by decide) (by decide)
     (by decide) (by decide),
   c7_str_to_uint_spec.2.2.2.2.2.2 [] (strBytes "5") 120 [] (by decide) (by decide)
     (by decide) (by decide) (by decide)⟩

/-! ## IPv4 normalization (C8) -/

/-- A valid octet group: non-empty, all digits, decimal value at most 255. -/
def okGroup (g : List Nat) : Prop :=
  g ≠ [] ∧ (∀ c ∈ g, isdigitB c = true) ∧ valDec 0 g ≤ 255

instance (g : List Nat) : Decidable (okGroup g) := by
  unfold okGroup
  infer_instance

lemma digits_no_dot {g : List Nat} (h : ∀ c ∈ g, isdigitB c = true) : 46 ∉ g := by
  intro hm
  have := h 46 hm
  simp [isdigitB] at this

lemma splitAtDot_eq : ∀ (l g r : List Nat), splitAtDot l = some (g, r) →
    l = g ++ 46 :: r ∧ 46 ∉ g := by
  intro l
  induction l with
  | nil =>
    intro g r h
    cases h
  | cons b rest ih =>
    intro g r h
    simp only [splitAtDot] at h
    by_cases hb : b = 46
    · subst hb
      simp only [if_pos rfl, beq_self_eq_true, ite_true, Option.some.injEq, Prod.mk.injEq] at h
      obtain ⟨h1, h2⟩ := h
      subst h1
      subst h2
      exact ⟨rfl, by simp⟩
    · rw [if_neg (by simpa using hb)] at h
      cases hs : splitAtDot rest with
      | none => rw [hs] at h; cases h
      | some p =>
        obtain ⟨g', r'⟩ := p
        rw [hs] at h
        simp only [Option.some.injEq, Prod.mk.injEq] at h
        obtain ⟨h1, h2⟩ := h
        obtain ⟨he, hnm⟩ := ih g' r' hs
        subst h1
        subst h2
        rw [he]
        refine ⟨rfl, ?_⟩
        simp only [List.mem_cons, not_or]
        exact ⟨fun e => hb e.symm, hnm⟩

lemma splitAtDot_append : ∀ (g r : List Nat), 46 ∉ g →
    splitAtDot (g ++ 46 :: r) = some (g, r) := by
  intro g
  induction g with
  | nil =>
    intro r _
    rw [List.nil_append]
    simp [splitAtDot]
  | cons b g' ih =>
    intro r hg
    have hb : b ≠ 46 := fun e => hg (by simp [e])
    rw [List.cons_append]
    simp only [splitAtDot]
    rw [if_neg (by simpa using hb)]
    rw [ih r (fun hm => hg (List.mem_cons_of_mem b hm))]

lemma ipGroup_eq_some {g : List Nat} {v : Nat} :
    ipGroup g = some v ↔ okGroup g ∧ v = valDec 0 g := by
  unfold ipGroup okGroup
  constructor
  · intro h
    split at h
    · cases h
    · split at h
      · split at h
        · cases h
        · rename_i hemp hall hle
          injection h with h
          refine ⟨⟨by simpa using hemp, by simpa [List.all_eq_true] using hall, by omega⟩, h.symm⟩
      · cases h
  · rintro ⟨⟨h1, h2, h3⟩, rfl⟩
    rw [if_neg (by simpa using h1), if_pos (by simpa [List.all_eq_true] using h2),
      if_neg (by omega)]

/-- C8: `sanitize_ip` succeeds exactly on byte strings made of four
dot-separated non-empty all-digit groups each of decimal value at most
255, and the output re-renders each group's value without leading zeros;
`192.168.001.1` normalizes to `192.168.1.1`, while `256.0.0.1` (octet out
of range) and `1.2.3` (wrong group count) are rejected with no output. -/
theorem c8_sanitize_ip_spec :
    (∀ src out : List Nat,
        sanitize_ip src = some out ↔
        ∃ g1 g2 g3 g4 : List Nat,
          src = g1 ++ 46 :: (g2 ++ 46 :: (g3 ++ 46 :: g4)) ∧
          okGroup g1 ∧ okGroup g2 ∧ okGroup g3 ∧ okGroup g4 ∧
          out = natDec (valDec 0 g1) ++ 46 :: natDec (valDec 0 g2) ++ 46 ::
            natDec (valDec 0 g3) ++ 46 :: natDec (valDec 0 g4)) ∧
    sanitize_ip (strBytes "192.168.001.1") = some (strBytes "192.168.1.1") ∧
    sanitize_ip (strBytes "256.0.0.1") = none ∧
    sanitize_ip (strBytes "1.2.3") = none := by
  refine ⟨?_, by decide, by decide, by decide⟩
  intro src out
  constructor
  · intro h
    unfold sanitize_ip at h
    split at h
    · cases h
    · rename_i _xs1 g1 r1 hs1
      split at h
      · cases h
      · rename_i _xv1 v1 hv1
        split at h
        · cases h
        · rename_i _xs2 g2 r2 hs2
          split at h
          · cases h
          · rename_i _xv2 v2 hv2
            split at h
            · cases h
            · rename_i _xs3 g3 r3 hs3
              split at h
              · cases h
              · rename_i _xv3 v3 hv3
                split at h
                · cases h
                · rename_i _xv4 v4 hv4
                  injection h with h
                  obtain ⟨he1, hn1⟩ := splitAtDot_eq src g1 r1 hs1
                  obtain ⟨he2, hn2⟩ := splitAtDot_eq r1 g2 r2 hs2
                  obtain ⟨he3, hn3⟩ := splitAtDot_eq r2 g3 r3 hs3
                  obtain ⟨ho1, hv1'⟩ := ipGroup_eq_some.mp hv1
                  obtain ⟨ho2, hv2'⟩ := ipGroup_eq_some.mp hv2
                  obtain ⟨ho3, hv3'⟩ := ipGroup_eq_some.mp hv3
                  obtain ⟨ho4, hv4'⟩ := ipGroup_eq_some.mp hv4
                  refine ⟨g1, g2, g3, r3, ?_, ho1, ho2, ho3, ho4, ?_⟩
                  · rw [he1, he2, he3]
                  · rw [← h, hv1', hv2', hv3', hv4']
  · rintro ⟨g1, g2, g3, g4, rfl, hg1, hg2, hg3, hg4, rfl⟩
    unfold sanitize_ip
    rw [splitAtDot_append g1 _ (digits_no_dot hg1.2.1)]
    simp only []
    rw [ipGroup_eq_some.mpr ⟨hg1, rfl⟩]
    simp only []
    rw [splitAtDot_append g2 _ (digits_no_dot hg2.2.1)]
    simp only []
    rw [ipGroup_eq_some.mpr ⟨hg2, rfl⟩]
    simp only []
    rw [splitAtDot_append g3 _ (digits_no_dot hg3.2.1)]
    simp only []
    rw [ipGroup_eq_some.mpr ⟨hg3, rfl⟩]
    simp only []
    rw [ipGroup_eq_some.mpr ⟨hg4, rfl⟩]

/-- Witness for C8: the characterization applied in both directions at a
concrete address. -/
theorem c8_sanitize_ip_spec_witness :
    sanitize_ip (strBytes "10.0.200.007") =
      some (natDec (valDec 0 (strBytes "10")) ++ 46 :: natDec (valDec 0 (strBytes "0")) ++
        46 :: natDec (valDec 0 (strBytes "200")) ++ 46 :: natDec (valDec 0 (strBytes "007"))) :=
  (c8_sanitize_ip_spec.1 (strBytes "10.0.200.007") _).mpr
    ⟨strBytes "10", strBytes "0", strBytes "200", strBytes "007",
      by decide, by decide, by decide, by decide, by decide, rfl⟩
